import Mathlib

/-! # Verification of `platform/disk/linux_mounter.go`

A shallow embedding of the Linux mounter of the BOSH agent.

The mounter owns no state of its own: everything it does goes through three
collaborators (the mounts searcher, the command runner and the file system)
and `time.Sleep`.  Each call to one of them is recorded as an `Event`; the
list of events so far is the state that is threaded through every operation.
A collaborator is an arbitrary function of that history, so successive calls
may answer differently (a mount table that changes, a command that fails
twice and then succeeds).
-/

namespace Disk

/-! ## Errors -/

/-- Modelled from the spec: the package `bosherr` (bosh-utils `errors`) is not
among the sources; failures are "explicit error values carrying a
human-readable cause chain".  `external` is an error produced by a
collaborator, `errorf` is `bosherr.Errorf`, and `wrap`/`wrapNil` are
`bosherr.WrapError`/`WrapErrorf` applied to a non-nil and to a nil cause. -/
inductive Error where
  | external (msg : String)
  | errorf (msg : String)
  | wrap (cause : Error) (msg : String)
  | wrapNil (msg : String)
  deriving DecidableEq, Repr

/-- Modelled from the spec: `bosherr.Errorf`, with the format string already
expanded. -/
def Errorf (msg : String) : Option Error :=
  some (Error.errorf msg)

/-- Modelled from the spec: `bosherr.WrapError(cause, msg)` and `WrapErrorf`;
the result is an error also when the cause is nil (a precondition that is not
met "fails with MountPointNotFound"). -/
def WrapError (cause : Option Error) (msg : String) : Option Error :=
  match cause with
  | some e => some (Error.wrap e msg)
  | none => some (Error.wrapNil msg)

/-! ## Data model -/

/-- Go `Mount`: one record of the mount table. -/
structure Mount where
  PartitionPath : String
  MountPoint : String
  deriving DecidableEq, Repr

/-- One call made by the mounter to a collaborator. -/
inductive Event where
  | searchMounts
  | runCommand (name : String) (args : List String)
  | sleep (d : Int)
  | stat (path : String)
  | readlink (path : String)
  | writeFileString (path : String) (content : String)
  deriving DecidableEq, Repr

/-- The calls made so far, oldest first. -/
abbrev History := List Event

/-- What `RunCommand` returns: stdout, stderr, exit status, error. -/
structure CmdResult where
  stdout : String
  stderr : String
  exitStatus : Int
  err : Option Error
  deriving DecidableEq, Repr

/-- Go `MountsSearcher`: the answer may depend on everything done before. -/
structure MountsSearcher where
  SearchMounts : History → List Mount × Option Error

/-- Go `boshsys.CmdRunner`, restricted to `RunCommand`. -/
structure CmdRunner where
  RunCommand : History → String → List String → CmdResult

/-- Go `boshsys.FileSystem`, restricted to the two methods the mounter uses. -/
structure FileSystem where
  Readlink : History → String → String × Option Error
  WriteFileString : History → String → String → Option Error

/-- Go `linuxMounter`.  `maxUnmountRetries` is a Go `int` that only ever holds
the constant set by `NewLinuxMounter`; `unmountRetrySleep` is a
`time.Duration`. -/
structure linuxMounter where
  fs : FileSystem
  runner : CmdRunner
  mountsSearcher : MountsSearcher
  maxUnmountRetries : Nat
  unmountRetrySleep : Int

/-- Go `NewLinuxMounter`. -/
def NewLinuxMounter (fs : FileSystem) (runner : CmdRunner)
    (mountsSearcher : MountsSearcher) (unmountRetrySleep : Int) : linuxMounter :=
  { fs := fs
    runner := runner
    mountsSearcher := mountsSearcher
    maxUnmountRetries := 600
    unmountRetrySleep := unmountRetrySleep }

/-! ## Calls to the collaborators -/

/-- A computation that reads and extends the history. -/
abbrev Run (α : Type) := History → α × History

/-- Call `mountsSearcher.SearchMounts()`. -/
def searchMounts (m : linuxMounter) : Run (List Mount × Option Error) :=
  fun h => (m.mountsSearcher.SearchMounts h, h ++ [Event.searchMounts])

/-- Call `runner.RunCommand(name, args...)`. -/
def runCommand (m : linuxMounter) (name : String) (args : List String) : Run CmdResult :=
  fun h => (m.runner.RunCommand h name args, h ++ [Event.runCommand name args])

/-- Call `time.Sleep(d)`. -/
def sleep (d : Int) : Run Unit :=
  fun h => ((), h ++ [Event.sleep d])

/-! ## Mount -/

/-- The `for ... range mounts` loop of `shouldMount`, with its final
`return true, nil`. -/
def shouldMountLoop (partitionPath mountPoint : String) : List Mount → Bool × Option Error
  | [] => (true, none)
  | mount :: rest =>
    if mount.PartitionPath = partitionPath ∧ mount.MountPoint = mountPoint then
      (false, none)
    else if mount.PartitionPath = partitionPath ∧ mount.MountPoint ≠ mountPoint
        ∧ partitionPath ≠ "tmpfs" then
      (false, Errorf ("Device " ++ mount.PartitionPath ++ " is already mounted to "
        ++ mount.MountPoint ++ ", can't mount to " ++ mountPoint))
    else if mount.MountPoint = mountPoint ∧ partitionPath ≠ "" then
      (false, Errorf ("Device " ++ mount.PartitionPath ++ " is already mounted to "
        ++ mount.MountPoint ++ ", can't mount " ++ partitionPath))
    else
      shouldMountLoop partitionPath mountPoint rest

/-- Go `linuxMounter.shouldMount`. -/
def linuxMounter.shouldMount (m : linuxMounter) (partitionPath mountPoint : String) :
    Run (Bool × Option Error) :=
  fun h =>
    let (r, h1) := searchMounts m h
    match r.2 with
    | some e => ((false, WrapError (some e) "Searching mounts"), h1)
    | none => (shouldMountLoop partitionPath mountPoint r.1, h1)

/-- The arguments `MountFilesystem` passes to `mount`. -/
def mountArgs (partitionPath mountPoint fstype : String) (mountOptions : List String) :
    List String :=
  let mountArgs := [partitionPath, mountPoint]
  let mountArgs := if fstype ≠ "" then mountArgs ++ ["-t", fstype] else mountArgs
  mountOptions.foldl (fun acc mountOption => acc ++ ["-o", mountOption]) mountArgs

/-- Go `linuxMounter.MountFilesystem`. -/
def linuxMounter.MountFilesystem (m : linuxMounter) (partitionPath mountPoint fstype : String)
    (mountOptions : List String) : Run (Option Error) :=
  fun h =>
    let (r, h1) := m.shouldMount partitionPath mountPoint h
    if r.1 = false then
      (r.2, h1)
    else
      match r.2 with
      | some e => (WrapError (some e) "Checking whether partition should be mounted", h1)
      | none =>
        let (c, h2) := runCommand m "mount"
          (mountArgs partitionPath mountPoint fstype mountOptions) h1
        match c.err with
        | some e => (WrapError (some e) "Shelling out to mount", h2)
        | none => (none, h2)

/-- Go `linuxMounter.Mount`. -/
def linuxMounter.Mount (m : linuxMounter) (partitionPath mountPoint : String)
    (mountOptions : List String) : Run (Option Error) :=
  m.MountFilesystem partitionPath mountPoint "" mountOptions

/-! ## Queries -/

/-- The `for ... range mounts` loop of `IsMountPoint`, with its final
`return "", false, nil`. -/
def isMountPointLoop (path : String) : List Mount → String × Bool × Option Error
  | [] => ("", false, none)
  | mount :: rest =>
    if mount.MountPoint = path then
      (mount.PartitionPath, true, none)
    else
      isMountPointLoop path rest

/-- Go `linuxMounter.IsMountPoint`. -/
def linuxMounter.IsMountPoint (m : linuxMounter) (path : String) :
    Run (String × Bool × Option Error) :=
  fun h =>
    let (r, h1) := searchMounts m h
    match r.2 with
    | some e => (("", false, WrapError (some e) "Searching mounts"), h1)
    | none => (isMountPointLoop path r.1, h1)

/-- The `for ... range mounts` loop of `IsMounted`, with its final
`return false, nil`. -/
def isMountedLoop (partitionOrMountPoint : String) : List Mount → Bool × Option Error
  | [] => (false, none)
  | mount :: rest =>
    if mount.PartitionPath = partitionOrMountPoint ∨ mount.MountPoint = partitionOrMountPoint then
      (true, none)
    else
      isMountedLoop partitionOrMountPoint rest

/-- Go `linuxMounter.IsMounted`. -/
def linuxMounter.IsMounted (m : linuxMounter) (partitionOrMountPoint : String) :
    Run (Bool × Option Error) :=
  fun h =>
    let (r, h1) := searchMounts m h
    match r.2 with
    | some e => ((false, WrapError (some e) "Searching mounts"), h1)
    | none => (isMountedLoop partitionOrMountPoint r.1, h1)

/-! ## Unmount and Remount -/

/-- The retry loop of `Unmount`:
`for i := 1; i < m.maxUnmountRetries && err != nil; i++`. -/
def unmountRetryLoop (m : linuxMounter) (partitionOrMountPoint : String) (i : Nat)
    (err : Option Error) (h : History) : Option Error × History :=
  if i < m.maxUnmountRetries ∧ err ≠ none then
    let (_, h1) := sleep m.unmountRetrySleep h
    let (c, h2) := runCommand m "umount" [partitionOrMountPoint] h1
    unmountRetryLoop m partitionOrMountPoint (i + 1) c.err h2
  else
    (err, h)
termination_by m.maxUnmountRetries - i

/-- Go `linuxMounter.Unmount`. -/
def linuxMounter.Unmount (m : linuxMounter) (partitionOrMountPoint : String) :
    Run (Bool × Option Error) :=
  fun h =>
    let (r, h1) := m.IsMounted partitionOrMountPoint h
    if r.2 ≠ none ∨ r.1 = false then
      ((false, r.2), h1)
    else
      let (c, h2) := runCommand m "umount" [partitionOrMountPoint] h1
      let (err, h3) := unmountRetryLoop m partitionOrMountPoint 1 c.err h2
      ((decide (err = none), err), h3)

/-- Go `linuxMounter.Remount`. -/
def linuxMounter.Remount (m : linuxMounter) (fromMountPoint toMountPoint : String)
    (mountOptions : List String) : Run (Option Error) :=
  fun h =>
    let (r, h1) := m.IsMountPoint fromMountPoint h
    if r.2.2 ≠ none ∨ r.2.1 = false then
      (WrapError r.2.2 ("Error finding device for mount point " ++ fromMountPoint), h1)
    else
      let (u, h2) := m.Unmount fromMountPoint h1
      match u.2 with
      | some e => (WrapError (some e) ("Unmounting " ++ fromMountPoint), h2)
      | none => m.Mount r.1 toMountPoint mountOptions h2

/-- Go `linuxMounter.RemountAsReadonly`. -/
def linuxMounter.RemountAsReadonly (m : linuxMounter) (mountPoint : String) :
    Run (Option Error) :=
  m.Remount mountPoint mountPoint ["ro"]

/-- Go `linuxMounter.RemountInPlace`. -/
def linuxMounter.RemountInPlace (m : linuxMounter) (mountPoint : String)
    (mountOptions : List String) : Run (Option Error) :=
  fun h =>
    let (r, h1) := m.IsMounted mountPoint h
    if r.2 ≠ none ∨ r.1 = false then
      (WrapError r.2 ("Error finding existing mount point " ++ mountPoint), h1)
    else
      m.Mount "" mountPoint ("remount" :: mountOptions) h1

/-! ## Go library functions on strings and paths -/

/-- Go `unicode.IsSpace`. -/
def isSpace (c : Char) : Bool :=
  let n := c.toNat
  (0x09 ≤ n ∧ n ≤ 0x0D) ∨ n = 0x20 ∨ n = 0x85 ∨ n = 0xA0 ∨ n = 0x1680
    ∨ (0x2000 ≤ n ∧ n ≤ 0x200A) ∨ n = 0x2028 ∨ n = 0x2029 ∨ n = 0x202F ∨ n = 0x205F
    ∨ n = 0x3000

/-- The pieces of a character list between occurrences of `sep`. -/
def splitChars (sep : Char) : List Char → List (List Char)
  | [] => [[]]
  | c :: cs =>
    if c = sep then
      [] :: splitChars sep cs
    else
      match splitChars sep cs with
      | [] => [[c]]
      | l :: ls => (c :: l) :: ls

/-- Go `strings.Split(s, sep)` for a separator of one character. -/
def Split (s : String) (sep : Char) : List String :=
  (splitChars sep s.data).map String.mk

/-- The maximal runs of non-space characters of a character list. -/
def fieldsChars : List Char → List (List Char)
  | [] => []
  | c :: cs =>
    if isSpace c then
      fieldsChars cs
    else
      match cs with
      | [] => [[c]]
      | d :: _ =>
        if isSpace d then
          [c] :: fieldsChars cs
        else
          match fieldsChars cs with
          | [] => [[c]]
          | f :: fs => (c :: f) :: fs

/-- Go `strings.Fields`. -/
def Fields (s : String) : List String :=
  (fieldsChars s.data).map String.mk

/-- One element of a path seen by `filepath.Clean`: empty and `.` elements
are dropped, `..` removes the element before it when there is one to remove,
and is kept in front of a path that is not rooted. -/
def cleanStep (rooted : Bool) (out : List (List Char)) (elem : List Char) :
    List (List Char) :=
  if elem = [] ∨ elem = ['.'] then
    out
  else if elem = ['.', '.'] then
    match out.getLast? with
    | some last =>
      if last ≠ ['.', '.'] then out.dropLast
      else if rooted then out else out ++ [elem]
    | none => if rooted then out else out ++ [elem]
  else
    out ++ [elem]

/-- Go `filepath.Clean` on Unix. -/
def Clean (path : String) : String :=
  if path = "" then
    "."
  else
    let rooted := path.data.head? = some '/'
    let out := (splitChars '/' path.data).foldl (cleanStep rooted) []
    let joined := String.intercalate "/" (out.map String.mk)
    if rooted then "/" ++ joined
    else if out = [] then "."
    else joined

/-- Go `filepath.Base` on Unix. -/
def Base (path : String) : String :=
  if path = "" then
    "."
  else
    let stripped := (path.data.reverse.dropWhile (fun c => c = '/')).reverse
    let last := (stripped.reverse.takeWhile (fun c => c ≠ '/')).reverse
    if last = [] then "/" else String.mk last

/-- Go `filepath.Dir` on Unix. -/
def Dir (path : String) : String :=
  Clean (String.mk (path.data.reverse.dropWhile (fun c => c ≠ '/')).reverse)

/-! ## SwapOn -/

/-- The `for i, swapOnLines := range strings.Split(out, "\n")` loop of
`SwapOn`; `true` when the loop leaves the function with `return nil`. -/
def swapOnLoop (partitionPath : String) : Nat → List String → Bool
  | _, [] => false
  | i, swapOnLines :: rest =>
    let swapOnFields := Fields swapOnLines
    if i = 0 then
      swapOnLoop partitionPath (i + 1) rest
    else if swapOnFields.length = 0 then
      swapOnLoop partitionPath (i + 1) rest
    else if swapOnFields.head? = some partitionPath then
      true
    else
      swapOnLoop partitionPath (i + 1) rest

/-- Go `linuxMounter.SwapOn`. -/
def linuxMounter.SwapOn (m : linuxMounter) (partitionPath : String) : Run (Option Error) :=
  fun h =>
    let (q, h1) := runCommand m "swapon" ["-s"] h
    if swapOnLoop partitionPath 0 (Split q.stdout '\n') then
      (none, h1)
    else
      let (c, h2) := runCommand m "swapon" [partitionPath] h1
      match c.err with
      | some e => (WrapError (some e) "Shelling out to swapon", h2)
      | none => (none, h2)

/-! ## Detach -/

/-- Go `syscall.Stat`: the device number left in `stat.Rdev` and the error. -/
structure Syscall where
  Stat : History → String → Nat × Option Error

/-- Call `syscall.Stat(path, &stat)`. -/
def stat (sys : Syscall) (path : String) : Run (Nat × Option Error) :=
  fun h => (sys.Stat h path, h ++ [Event.stat path])

/-- Call `fs.Readlink(path)`. -/
def readlink (m : linuxMounter) (path : String) : Run (String × Option Error) :=
  fun h => (m.fs.Readlink h path, h ++ [Event.readlink path])

/-- Call `fs.WriteFileString(path, content)`. -/
def writeFileString (m : linuxMounter) (path content : String) : Run (Option Error) :=
  fun h => (m.fs.WriteFileString h path content, h ++ [Event.writeFileString path content])

/-- The symlink `Detach` resolves, from the device number:
`fmt.Sprintf("/sys/dev/block/%d:%d", stat.Rdev/256, stat.Rdev%256)`. -/
def blockDeviceLink (rdev : Nat) : String :=
  "/sys/dev/block/" ++ toString (rdev / 256) ++ ":" ++ toString (rdev % 256)

/-- The path `Detach` writes to, from the target of the sysfs symlink. -/
def deletePhysicalDevicePath (blockDevicePath : String) : String :=
  let physicalDeviceName := "/sys/block/" ++ Base blockDevicePath ++ "/device/delete"
  let parent := Base (Dir blockDevicePath)
  let physicalDeviceName := if parent ≠ "block" then parent else physicalDeviceName
  "/sys/block/" ++ physicalDeviceName ++ "/device/delete"

/-- Go `linuxMounter.Detach`; the error of `syscall.Stat` is discarded as in
the source. -/
def linuxMounter.Detach (m : linuxMounter) (sys : Syscall) (realPath : String) :
    Run (Bool × Option Error) :=
  fun h =>
    let (r, h1) := m.IsMounted realPath h
    if r.2 ≠ none ∨ r.1 = true then
      ((false, r.2), h1)
    else
      let (st, h2) := stat sys realPath h1
      let (l, h3) := readlink m (blockDeviceLink st.1) h2
      match l.2 with
      | some e => ((false, some e), h3)
      | none =>
        let (err, h4) := writeFileString m (deletePhysicalDevicePath l.1) "1" h3
        ((decide (err = none), err), h4)

/-! ## Vocabulary of the statements -/

/-- The second rule of `shouldMount` fires on `r`: the device is mounted at
another mount point and is not the pseudo-device. -/
def mountedElsewhere (partitionPath mountPoint : String) (r : Mount) : Prop :=
  r.PartitionPath = partitionPath ∧ r.MountPoint ≠ mountPoint ∧ partitionPath ≠ "tmpfs"

/-- The third rule of `shouldMount` fires on `r`: the mount point is taken by
another device and the request names a device. -/
def occupiedByOther (partitionPath mountPoint : String) (r : Mount) : Prop :=
  r.MountPoint = mountPoint ∧ r.PartitionPath ≠ partitionPath ∧ partitionPath ≠ ""

/-- One `-o <option>` pair per option, in order. -/
def optionArgs : List String → List String
  | [] => []
  | o :: os => "-o" :: o :: optionArgs os

/-- The number of times `name args...` was run in a history. -/
def invocations (name : String) (args : List String) (h : History) : Nat :=
  h.count (Event.runCommand name args)

/-- The events of `k` retries of `umount target`: a sleep, then the command. -/
def retryEvents (d : Int) (target : String) : Nat → List Event
  | 0 => []
  | k + 1 => Event.sleep d :: Event.runCommand "umount" [target] :: retryEvents d target k

/-- The Linux major number of a 64-bit device number:
`((rdev >> 8) & 0xfff) | ((rdev >> 32) & ~0xfff)`. -/
def linuxMajor (rdev : Nat) : Nat :=
  ((rdev >>> 8) &&& 0xfff) ||| ((rdev >>> 32) &&& (2 ^ 64 - 1 - 0xfff))

/-- The Linux minor number of a 64-bit device number:
`(rdev & 0xff) | ((rdev >> 12) & ~0xff)`. -/
def linuxMinor (rdev : Nat) : Nat :=
  (rdev &&& 0xff) ||| ((rdev >>> 12) &&& (2 ^ 64 - 1 - 0xff))

/-- Some line after the first has `partitionPath` as its first field. -/
def listedAsSwap (out partitionPath : String) : Prop :=
  ∃ line ∈ (Split out '\n').tail, (Fields line).head? = some partitionPath

/-! ## Example collaborators -/

/-- A searcher that always answers with the same table. -/
def fixedSearcher (table : List Mount) : MountsSearcher :=
  { SearchMounts := fun _ => (table, none) }

/-- A runner whose commands all succeed. -/
def okRunner : CmdRunner :=
  { RunCommand := fun _ _ _ => { stdout := "", stderr := "", exitStatus := 0, err := none } }

/-- A file system whose calls all succeed. -/
def okFs : FileSystem :=
  { Readlink := fun _ _ => ("", none)
    WriteFileString := fun _ _ _ => none }

/-- A table in which `/dev/sda1` is listed at `/mnt/b` before `/mnt/a`. -/
def twiceMountedTable : List Mount :=
  [⟨"/dev/sda1", "/mnt/b"⟩, ⟨"/dev/sda1", "/mnt/a"⟩]

/-- A mounter over `twiceMountedTable`. -/
def twiceMountedMounter : linuxMounter :=
  NewLinuxMounter okFs okRunner (fixedSearcher twiceMountedTable) 1

/-- A table with another device mounted before `/dev/sda1` at `/mnt/a`. -/
def mountedTable : List Mount :=
  [⟨"/dev/sdb1", "/mnt/b"⟩, ⟨"/dev/sda1", "/mnt/a"⟩]

/-- A mounter over `mountedTable`. -/
def mountedMounter : linuxMounter :=
  NewLinuxMounter okFs okRunner (fixedSearcher mountedTable) 1

/-- A searcher that lists `/dev/sda1` at `/mnt/a` once the command
`mount /dev/sda1 /mnt/a -o rw` has been run. -/
def afterMountSearcher : MountsSearcher :=
  { SearchMounts := fun h =>
      if Event.runCommand "mount" ["/dev/sda1", "/mnt/a", "-o", "rw"] ∈ h then
        ([⟨"/dev/sdb1", "/mnt/b"⟩, ⟨"/dev/sda1", "/mnt/a"⟩], none)
      else
        ([⟨"/dev/sdb1", "/mnt/b"⟩], none) }

/-- A mounter over `afterMountSearcher`. -/
def afterMountMounter : linuxMounter :=
  NewLinuxMounter okFs okRunner afterMountSearcher 1

/-- A table with `/dev/sda1` at `/mnt/a` listed before another device at
`/mnt/b`. -/
def deviceFirstTable : List Mount :=
  [⟨"/dev/sda1", "/mnt/a"⟩, ⟨"/dev/sdb1", "/mnt/b"⟩]

/-- A mounter over `deviceFirstTable`. -/
def deviceFirstMounter : linuxMounter :=
  NewLinuxMounter okFs okRunner (fixedSearcher deviceFirstTable) 1

/-- A table with `tmpfs` mounted twice and `/dev/sdb1` at `/mnt/b`. -/
def tmpfsTable : List Mount :=
  [⟨"tmpfs", "/run"⟩, ⟨"tmpfs", "/dev/shm"⟩, ⟨"/dev/sdb1", "/mnt/b"⟩]

/-- A mounter over `tmpfsTable`. -/
def tmpfsMounter : linuxMounter :=
  NewLinuxMounter okFs okRunner (fixedSearcher tmpfsTable) 1

/-- A runner whose `umount /mnt/a` fails with "target is busy" the first two
times it is run and succeeds from the third time on; every other command
succeeds. -/
def busyTwiceRunner : CmdRunner :=
  { RunCommand := fun h name args =>
      if name = "umount" ∧ args = ["/mnt/a"] ∧ invocations "umount" ["/mnt/a"] h < 2 then
        { stdout := "", stderr := "umount: /mnt/a: target is busy", exitStatus := 32,
          err := some (Error.external "exit status 32") }
      else
        { stdout := "", stderr := "", exitStatus := 0, err := none } }

/-- A runner whose every command fails. -/
def failingRunner : CmdRunner :=
  { RunCommand := fun _ _ _ =>
      { stdout := "", stderr := "failed", exitStatus := 1,
        err := some (Error.external "exit status 1") } }

/-- A mounter over `mountedTable` whose commands all fail. -/
def failingMounter : linuxMounter :=
  NewLinuxMounter okFs failingRunner (fixedSearcher mountedTable) 1000000000

/-- A searcher that lists `/dev/sda1` at `/mnt/a` and at `/mnt/b` until
`umount /mnt/a` has been run, and at `/mnt/b` only afterwards. -/
def afterUmountSearcher : MountsSearcher :=
  { SearchMounts := fun h =>
      if Event.runCommand "umount" ["/mnt/a"] ∈ h then
        ([⟨"/dev/sda1", "/mnt/b"⟩], none)
      else
        ([⟨"/dev/sda1", "/mnt/a"⟩, ⟨"/dev/sda1", "/mnt/b"⟩], none) }

/-- A mounter over `afterUmountSearcher`. -/
def afterUmountMounter : linuxMounter :=
  NewLinuxMounter okFs okRunner afterUmountSearcher 1

/-- A searcher that answers `mountedTable` until `umount /mnt/a` has been run,
and the table without `/dev/sda1` afterwards. -/
def releasingSearcher : MountsSearcher :=
  { SearchMounts := fun h =>
      if Event.runCommand "umount" ["/mnt/a"] ∈ h then
        ([⟨"/dev/sdb1", "/mnt/b"⟩], none)
      else
        (mountedTable, none) }

/-- A mounter over `releasingSearcher` whose `umount /mnt/a` is busy twice. -/
def releasingMounter : linuxMounter :=
  NewLinuxMounter okFs busyTwiceRunner releasingSearcher 1000000000

/-- A mounter over a table whose only record has an empty device. -/
def emptyDeviceMounter : linuxMounter :=
  NewLinuxMounter okFs okRunner (fixedSearcher [⟨"", "/mnt/a"⟩]) 1

/-- A `syscall.Stat` that reports the device number of `/dev/sdb`, 8:16. -/
def sdbStat : Syscall :=
  { Stat := fun _ _ => (2064, none) }

/-- A `syscall.Stat` that fails and leaves the device number zero. -/
def failingStat : Syscall :=
  { Stat := fun _ _ => (0, some (Error.external "no such file or directory")) }

/-- A `syscall.Stat` that reports major 8 with the extended minor 256. -/
def extendedMinorStat : Syscall :=
  { Stat := fun _ _ => (1050624, none) }

/-- A file system whose sysfs symlinks all point at the partition node
`sdb1` of the disk `sdb`. -/
def partitionNodeFs : FileSystem :=
  { Readlink := fun _ _ => ("../../devices/pci0000:00/block/sdb/sdb1", none)
    WriteFileString := fun _ _ _ => none }

/-- A file system whose sysfs symlinks all point at the whole-disk node of
`sdb`. -/
def wholeDiskNodeFs : FileSystem :=
  { Readlink := fun _ _ => ("../../devices/pci0000:00/block/sdb", none)
    WriteFileString := fun _ _ _ => none }

/-- A mounter over `mountedTable` whose symlinks point at a partition node. -/
def partitionNodeMounter : linuxMounter :=
  NewLinuxMounter partitionNodeFs okRunner (fixedSearcher mountedTable) 1

/-- A mounter over `mountedTable` whose symlinks point at a whole-disk node. -/
def wholeDiskNodeMounter : linuxMounter :=
  NewLinuxMounter wholeDiskNodeFs okRunner (fixedSearcher mountedTable) 1

/-- A searcher whose query fails. -/
def failingSearcher : MountsSearcher :=
  { SearchMounts := fun _ => ([], some (Error.external "open /proc/mounts: permission denied")) }

/-- A mounter whose mount table cannot be read. -/
def noTableMounter : linuxMounter :=
  NewLinuxMounter okFs okRunner failingSearcher 1

/-- A runner whose `swapon -s` lists `/dev/sdb2` after a header line and a
blank line; every command succeeds. -/
def swapListingRunner : CmdRunner :=
  { RunCommand := fun _ name args =>
      if name = "swapon" ∧ args = ["-s"] then
        { stdout := "Filename\tType\tSize\tUsed\tPriority\n\n/dev/sdb2 partition 1048572 0 -1\n",
          stderr := "", exitStatus := 0, err := none }
      else
        { stdout := "", stderr := "", exitStatus := 0, err := none } }

/-- A mounter over `swapListingRunner`. -/
def swapListingMounter : linuxMounter :=
  NewLinuxMounter okFs swapListingRunner (fixedSearcher mountedTable) 1

/-- A searcher whose table can be read until `umount /mnt/a` has been run and
whose query fails afterwards. -/
def tableLostSearcher : MountsSearcher :=
  { SearchMounts := fun h =>
      if Event.runCommand "umount" ["/mnt/a"] ∈ h then
        ([], some (Error.external "open /proc/mounts: permission denied"))
      else
        (mountedTable, none) }

/-- A mounter over `tableLostSearcher`. -/
def tableLostMounter : linuxMounter :=
  NewLinuxMounter okFs okRunner tableLostSearcher 1

/-- A searcher whose first query succeeds and whose later queries fail. -/
def firstReadOnlySearcher : MountsSearcher :=
  { SearchMounts := fun h =>
      if Event.searchMounts ∈ h then
        ([], some (Error.external "open /proc/mounts: permission denied"))
      else
        (mountedTable, none) }

/-- A mounter over `firstReadOnlySearcher`. -/
def firstReadOnlyMounter : linuxMounter :=
  NewLinuxMounter okFs okRunner firstReadOnlySearcher 1

/-! # Theorems -/

/-! ## The scan of `shouldMount` -/

/-- Records on which no conflict rule fires are skipped by the scan, up to the
first exact match. -/
theorem shouldMountLoop_skip_to_exact (p mp : String) (pre post : List Mount)
    (hpre : ∀ r ∈ pre, ¬ mountedElsewhere p mp r ∧ ¬ occupiedByOther p mp r) :
    shouldMountLoop p mp (pre ++ ⟨p, mp⟩ :: post) = (false, none) := by
  induction pre with
  | nil => simp [shouldMountLoop]
  | cons r rest ih =>
    have hr := hpre r (List.mem_cons_self r rest)
    have ih1 := ih (fun x hx => hpre x (List.mem_cons_of_mem r hx))
    simp only [mountedElsewhere, occupiedByOther] at hr
    simp only [List.cons_append, shouldMountLoop]
    by_cases h1 : r.PartitionPath = p ∧ r.MountPoint = mp
    · rw [if_pos h1]
    · rw [if_neg h1, if_neg hr.1]
      by_cases h3 : r.MountPoint = mp ∧ p ≠ ""
      · exfalso
        exact hr.2 ⟨h3.1, fun hpp => h1 ⟨hpp, h3.1⟩, h3.2⟩
      · rw [if_neg h3]
        exact ih1

/-- When `searchMounts` succeeds, `shouldMount` is the scan of the table it
returned and reads the table once. -/
theorem shouldMount_of_table (m : linuxMounter) (p mp : String) (h : History)
    (T : List Mount) (hT : m.mountsSearcher.SearchMounts h = (T, none)) :
    m.shouldMount p mp h = (shouldMountLoop p mp T, h ++ [Event.searchMounts]) := by
  simp [linuxMounter.shouldMount, searchMounts, hT]

/-- When the scan does not say to mount, `MountFilesystem` returns the scan's
error without running a command. -/
theorem MountFilesystem_of_scan_false (m : linuxMounter) (p mp fstype : String)
    (opts : List String) (h : History) (T : List Mount) (e : Option Error)
    (hT : m.mountsSearcher.SearchMounts h = (T, none))
    (hscan : shouldMountLoop p mp T = (false, e)) :
    m.MountFilesystem p mp fstype opts h = (e, h ++ [Event.searchMounts]) := by
  simp [linuxMounter.MountFilesystem, shouldMount_of_table m p mp h T hT, hscan]

/-! ## Exact match -/

/-- C1 (counterexample): in the table `[(/dev/sda1, /mnt/b), (/dev/sda1, /mnt/a)]`
the record `(/dev/sda1, /mnt/a)` is present, yet `Mount` and `MountFilesystem`
of `/dev/sda1` at `/mnt/a` return the already-mounted-elsewhere error of the
first record instead of success. -/
theorem exact_match_not_first_fails :
    twiceMountedMounter.mountsSearcher.SearchMounts [] = (twiceMountedTable, none)
    ∧ (⟨"/dev/sda1", "/mnt/a"⟩ : Mount) ∈ twiceMountedTable
    ∧ twiceMountedMounter.Mount "/dev/sda1" "/mnt/a" [] []
        = (some (Error.errorf
            "Device /dev/sda1 is already mounted to /mnt/b, can't mount to /mnt/a"),
           [Event.searchMounts])
    ∧ twiceMountedMounter.MountFilesystem "/dev/sda1" "/mnt/a" "ext4" [] []
        = (some (Error.errorf
            "Device /dev/sda1 is already mounted to /mnt/b, can't mount to /mnt/a"),
           [Event.searchMounts])
    ∧ (twiceMountedMounter.Mount "/dev/sda1" "/mnt/a" [] []).1 ≠ none := by
  refine ⟨rfl, by decide, by decide, by decide, by decide⟩

/-- C1 (amended): when the table returned by `SearchMounts` contains the record
`(p, m)` and no record before it is a conflict (the device at another mount
point with `p` not `tmpfs`, or the mount point taken by another device with `p`
non-empty), `MountFilesystem` and `Mount` return nil and run no command: the
history grows by the table read only. -/
theorem exact_match_is_noop (m : linuxMounter) (p mp fstype : String)
    (opts : List String) (h : History) (pre post : List Mount)
    (hT : m.mountsSearcher.SearchMounts h = (pre ++ ⟨p, mp⟩ :: post, none))
    (hpre : ∀ r ∈ pre, ¬ mountedElsewhere p mp r ∧ ¬ occupiedByOther p mp r) :
    m.MountFilesystem p mp fstype opts h = (none, h ++ [Event.searchMounts])
    ∧ m.Mount p mp opts h = (none, h ++ [Event.searchMounts]) := by
  have hscan := shouldMountLoop_skip_to_exact p mp pre post hpre
  exact ⟨MountFilesystem_of_scan_false m p mp fstype opts h _ none hT hscan,
    MountFilesystem_of_scan_false m p mp "" opts h _ none hT hscan⟩

/-- C1 (witness): `/dev/sda1` at `/mnt/a`, listed after an unrelated record. -/
theorem exact_match_is_noop_witness :
    mountedMounter.mountsSearcher.SearchMounts []
      = ([⟨"/dev/sdb1", "/mnt/b"⟩] ++ ⟨"/dev/sda1", "/mnt/a"⟩ :: [], none)
    ∧ (∀ r ∈ [(⟨"/dev/sdb1", "/mnt/b"⟩ : Mount)],
        ¬ mountedElsewhere "/dev/sda1" "/mnt/a" r ∧ ¬ occupiedByOther "/dev/sda1" "/mnt/a" r)
    ∧ mountedMounter.MountFilesystem "/dev/sda1" "/mnt/a" "ext4" ["rw"] []
        = (none, [] ++ [Event.searchMounts])
    ∧ mountedMounter.Mount "/dev/sda1" "/mnt/a" ["rw"] [] = (none, [] ++ [Event.searchMounts]) :=
  have hT : mountedMounter.mountsSearcher.SearchMounts []
      = ([⟨"/dev/sdb1", "/mnt/b"⟩] ++ ⟨"/dev/sda1", "/mnt/a"⟩ :: [], none) := rfl
  have hpre : ∀ r ∈ [(⟨"/dev/sdb1", "/mnt/b"⟩ : Mount)],
      ¬ mountedElsewhere "/dev/sda1" "/mnt/a" r ∧ ¬ occupiedByOther "/dev/sda1" "/mnt/a" r := by
    simp [mountedElsewhere, occupiedByOther]
  ⟨hT, hpre, exact_match_is_noop mountedMounter "/dev/sda1" "/mnt/a" "ext4" ["rw"] []
      [⟨"/dev/sdb1", "/mnt/b"⟩] [] hT hpre |>.1,
    exact_match_is_noop mountedMounter "/dev/sda1" "/mnt/a" "ext4" ["rw"] []
      [⟨"/dev/sdb1", "/mnt/b"⟩] [] hT hpre |>.2⟩

/-! ## Idempotence -/

/-- A scan that says to mount found no record on which a rule fires, and
carries no error. -/
theorem shouldMountLoop_true (p mp : String) (T : List Mount)
    (hscan : (shouldMountLoop p mp T).1 = true) :
    shouldMountLoop p mp T = (true, none)
    ∧ ∀ r ∈ T, ¬ (r.PartitionPath = p ∧ r.MountPoint = mp)
        ∧ ¬ mountedElsewhere p mp r ∧ ¬ occupiedByOther p mp r := by
  induction T with
  | nil => simp [shouldMountLoop]
  | cons r rest ih =>
    simp only [shouldMountLoop] at hscan ⊢
    by_cases h1 : r.PartitionPath = p ∧ r.MountPoint = mp
    · simp [if_pos h1] at hscan
    · rw [if_neg h1] at hscan ⊢
      by_cases h2 : r.PartitionPath = p ∧ r.MountPoint ≠ mp ∧ p ≠ "tmpfs"
      · simp [if_pos h2, Errorf] at hscan
      · rw [if_neg h2] at hscan ⊢
        by_cases h3 : r.MountPoint = mp ∧ p ≠ ""
        · simp [if_pos h3, Errorf] at hscan
        · rw [if_neg h3] at hscan ⊢
          obtain ⟨ih1, ih2⟩ := ih hscan
          refine ⟨ih1, ?_⟩
          intro x hx
          rcases List.mem_cons.mp hx with rfl | hx
          · exact ⟨h1, h2, fun hocc => h3 ⟨hocc.1, hocc.2.2⟩⟩
          · exact ih2 x hx

/-- A history that grew by a command is evidence that the scan said to mount. -/
theorem scan_true_of_command_run (m : linuxMounter) (p mp fstype : String)
    (opts : List String) (h : History) (T : List Mount) (res : Option Error)
    (name : String) (args : List String)
    (hT : m.mountsSearcher.SearchMounts h = (T, none))
    (hrun : m.MountFilesystem p mp fstype opts h
      = (res, h ++ [Event.searchMounts, Event.runCommand name args])) :
    (shouldMountLoop p mp T).1 = true := by
  by_contra hne
  have hfalse : (shouldMountLoop p mp T).1 = false := by
    cases hb : (shouldMountLoop p mp T).1 with
    | true => exact absurd hb hne
    | false => rfl
  have hnoop := MountFilesystem_of_scan_false m p mp fstype opts h T
    (shouldMountLoop p mp T).2 hT (by rw [← hfalse])
  rw [hnoop] at hrun
  have hlen := congrArg (fun x => x.2.length) hrun
  simp at hlen

/-- C2: `Mount` is idempotent.  If `Mount(p, m, opts)` on table `T` went on to
run its mount command and returned nil, then `Mount(p, m, opts)` against `T`
with the record `(p, m)` inserted at any position `k` returns nil and runs no
command: the history grows by the table read only. -/
theorem mount_idempotent (m : linuxMounter) (p mp : String) (opts : List String)
    (T : List Mount) (k : Nat) (h0 h1 : History)
    (hT : m.mountsSearcher.SearchMounts h0 = (T, none))
    (hfirst : m.Mount p mp opts h0
      = (none, h0 ++ [Event.searchMounts,
          Event.runCommand "mount" (p :: mp :: optionArgs opts)]))
    (hT' : m.mountsSearcher.SearchMounts h1
      = (T.take k ++ ⟨p, mp⟩ :: T.drop k, none)) :
    m.Mount p mp opts h1 = (none, h1 ++ [Event.searchMounts]) := by
  have hscan := scan_true_of_command_run m p mp "" opts h0 T none _ _ hT hfirst
  have hclear := (shouldMountLoop_true p mp T hscan).2
  have hpre : ∀ r ∈ T.take k, ¬ mountedElsewhere p mp r ∧ ¬ occupiedByOther p mp r :=
    fun r hr => (hclear r (List.mem_of_mem_take hr)).2
  exact MountFilesystem_of_scan_false m p mp "" opts h1 _ none hT'
    (shouldMountLoop_skip_to_exact p mp _ _ hpre)

/-- C2 (witness): mounting `/dev/sda1` at `/mnt/a` with option `rw` twice, the
table gaining the record after the first call. -/
theorem mount_idempotent_witness :
    afterMountMounter.mountsSearcher.SearchMounts [] = ([⟨"/dev/sdb1", "/mnt/b"⟩], none)
    ∧ afterMountMounter.Mount "/dev/sda1" "/mnt/a" ["rw"] []
        = (none, [] ++ [Event.searchMounts,
            Event.runCommand "mount" ("/dev/sda1" :: "/mnt/a" :: optionArgs ["rw"])])
    ∧ afterMountMounter.mountsSearcher.SearchMounts
          [Event.searchMounts, Event.runCommand "mount" ["/dev/sda1", "/mnt/a", "-o", "rw"]]
        = (List.take 1 [⟨"/dev/sdb1", "/mnt/b"⟩] ++ ⟨"/dev/sda1", "/mnt/a"⟩
            :: List.drop 1 [⟨"/dev/sdb1", "/mnt/b"⟩], none)
    ∧ afterMountMounter.Mount "/dev/sda1" "/mnt/a" ["rw"]
          [Event.searchMounts, Event.runCommand "mount" ["/dev/sda1", "/mnt/a", "-o", "rw"]]
        = (none,
            [Event.searchMounts, Event.runCommand "mount" ["/dev/sda1", "/mnt/a", "-o", "rw"]]
            ++ [Event.searchMounts]) :=
  have hT : afterMountMounter.mountsSearcher.SearchMounts []
      = ([⟨"/dev/sdb1", "/mnt/b"⟩], none) := by decide
  have hfirst : afterMountMounter.Mount "/dev/sda1" "/mnt/a" ["rw"] []
      = (none, [] ++ [Event.searchMounts,
          Event.runCommand "mount" ("/dev/sda1" :: "/mnt/a" :: optionArgs ["rw"])]) := by
    decide
  have hT' : afterMountMounter.mountsSearcher.SearchMounts
        [Event.searchMounts, Event.runCommand "mount" ["/dev/sda1", "/mnt/a", "-o", "rw"]]
      = (List.take 1 [⟨"/dev/sdb1", "/mnt/b"⟩] ++ ⟨"/dev/sda1", "/mnt/a"⟩
          :: List.drop 1 [⟨"/dev/sdb1", "/mnt/b"⟩], none) := by decide
  ⟨hT, hfirst, hT', mount_idempotent afterMountMounter "/dev/sda1" "/mnt/a" ["rw"]
    [⟨"/dev/sdb1", "/mnt/b"⟩] 1 [] _ hT hfirst hT'⟩

/-! ## Conflicts -/

/-- The scan of a table that lists the device elsewhere, when every record
taking the mount point for another device comes after a record of the device:
the first record of the device decides. -/
theorem shouldMountLoop_elsewhere (p mp : String) (T : List Mount)
    (hx : ∃ x, x ≠ mp ∧ (⟨p, x⟩ : Mount) ∈ T)
    (htmpfs : p ≠ "tmpfs")
    (hexact : (⟨p, mp⟩ : Mount) ∉ T)
    (hfirst : ∀ pre r post, T = pre ++ r :: post → occupiedByOther p mp r →
      ∃ q ∈ pre, q.PartitionPath = p) :
    ∃ x, (⟨p, x⟩ : Mount) ∈ T ∧ x ≠ mp
      ∧ shouldMountLoop p mp T
        = (false, Errorf ("Device " ++ p ++ " is already mounted to " ++ x
            ++ ", can't mount to " ++ mp)) := by
  induction T with
  | nil =>
    obtain ⟨x, _, hmem⟩ := hx
    simp at hmem
  | cons r rest ih =>
    by_cases hpp : r.PartitionPath = p
    · have hmp : r.MountPoint ≠ mp := by
        intro hmp
        apply hexact
        have hr : r = ⟨p, mp⟩ := by
          cases r
          simp_all
        rw [← hr]
        exact List.mem_cons_self r rest
      refine ⟨r.MountPoint, ?_, hmp, ?_⟩
      · have hr : r = ⟨p, r.MountPoint⟩ := by
          cases r
          simp_all
        rw [← hr]
        exact List.mem_cons_self r rest
      · simp only [shouldMountLoop]
        rw [if_neg (fun hc => hmp hc.2), if_pos ⟨hpp, hmp, htmpfs⟩, hpp]
    · have hno3 : ¬ (r.MountPoint = mp ∧ p ≠ "") := by
        intro hc
        obtain ⟨q, hq, _⟩ := hfirst [] r rest rfl ⟨hc.1, hpp, hc.2⟩
        simp at hq
      have hx1 : ∃ x, x ≠ mp ∧ (⟨p, x⟩ : Mount) ∈ rest := by
        obtain ⟨x, hne, hmem⟩ := hx
        rcases List.mem_cons.mp hmem with heq | hmem
        · exact absurd (by rw [← heq]) hpp
        · exact ⟨x, hne, hmem⟩
      have hexact1 : (⟨p, mp⟩ : Mount) ∉ rest :=
        fun hmem => hexact (List.mem_cons_of_mem r hmem)
      have hfirst1 : ∀ pre q post, rest = pre ++ q :: post → occupiedByOther p mp q →
          ∃ q1 ∈ pre, q1.PartitionPath = p := by
        intro pre q post hsplit hocc
        obtain ⟨q1, hq1, hq1p⟩ := hfirst (r :: pre) q post (by rw [hsplit]; rfl) hocc
        rcases List.mem_cons.mp hq1 with heq | hq1
        · exact absurd (heq ▸ hq1p) hpp
        · exact ⟨q1, hq1, hq1p⟩
      obtain ⟨x, hmem, hne, hscan⟩ := ih hx1 hexact1 hfirst1
      refine ⟨x, List.mem_cons_of_mem r hmem, hne, ?_⟩
      simp only [shouldMountLoop]
      rw [if_neg (fun hc => hpp hc.1), if_neg (fun hc => hpp hc.1), if_neg hno3]
      exact hscan

/-- C3 (counterexample): in the table `[(/dev/sdb1, /mnt/b), (/dev/sda1, /mnt/a)]`
the device `/dev/sda1` is mounted at `/mnt/a` and nowhere at `/mnt/b`, yet
`Mount(/dev/sda1, /mnt/b)` fails with the mount-point-occupied error of the
first record, which is not the already-mounted-elsewhere error for any mount
point of `/dev/sda1`. -/
theorem elsewhere_after_occupied_fails :
    mountedMounter.mountsSearcher.SearchMounts [] = (mountedTable, none)
    ∧ (⟨"/dev/sda1", "/mnt/a"⟩ : Mount) ∈ mountedTable
    ∧ "/mnt/a" ≠ "/mnt/b"
    ∧ "/dev/sda1" ≠ "tmpfs"
    ∧ (⟨"/dev/sda1", "/mnt/b"⟩ : Mount) ∉ mountedTable
    ∧ mountedMounter.Mount "/dev/sda1" "/mnt/b" [] []
        = (some (Error.errorf
            "Device /dev/sdb1 is already mounted to /mnt/b, can't mount /dev/sda1"),
           [Event.searchMounts])
    ∧ ∀ x, (⟨"/dev/sda1", x⟩ : Mount) ∈ mountedTable →
        (mountedMounter.Mount "/dev/sda1" "/mnt/b" [] []).1
          ≠ Errorf ("Device " ++ "/dev/sda1" ++ " is already mounted to " ++ x
              ++ ", can't mount to " ++ "/mnt/b") := by
  refine ⟨rfl, by decide, by decide, by decide, by decide, by decide, ?_⟩
  intro x hx
  have hxa : x = "/mnt/a" := by
    simp [mountedTable] at hx
    exact hx
  subst hxa
  decide

/-- C3 (amended): when the table lists `p` at a mount point other than `m`,
`p` is not `tmpfs`, the table has no record `(p, m)`, and every record that
takes `m` for another device (with `p` non-empty) comes after some record of
`p`, then `Mount(p, m)` runs no command and fails with the error
"Device p is already mounted to x, can't mount to m" for a mount point `x` of
`p` in the table. -/
theorem mounted_elsewhere_error (m : linuxMounter) (p mp : String) (opts : List String)
    (h : History) (T : List Mount)
    (hT : m.mountsSearcher.SearchMounts h = (T, none))
    (hx : ∃ x, x ≠ mp ∧ (⟨p, x⟩ : Mount) ∈ T)
    (htmpfs : p ≠ "tmpfs")
    (hexact : (⟨p, mp⟩ : Mount) ∉ T)
    (hfirst : ∀ pre r post, T = pre ++ r :: post → occupiedByOther p mp r →
      ∃ q ∈ pre, q.PartitionPath = p) :
    ∃ x, (⟨p, x⟩ : Mount) ∈ T ∧ x ≠ mp
      ∧ m.Mount p mp opts h
        = (Errorf ("Device " ++ p ++ " is already mounted to " ++ x
            ++ ", can't mount to " ++ mp), h ++ [Event.searchMounts]) := by
  obtain ⟨x, hmem, hne, hscan⟩ := shouldMountLoop_elsewhere p mp T hx htmpfs hexact hfirst
  exact ⟨x, hmem, hne, MountFilesystem_of_scan_false m p mp "" opts h T _ hT hscan⟩

/-- C3 (witness): `/dev/sda1` is listed at `/mnt/a` before `/dev/sdb1` takes
`/mnt/b`; mounting `/dev/sda1` at `/mnt/b` reports the device as mounted
elsewhere. -/
theorem mounted_elsewhere_error_witness :
    deviceFirstMounter.mountsSearcher.SearchMounts [] = (deviceFirstTable, none)
    ∧ (∃ x, x ≠ "/mnt/b" ∧ (⟨"/dev/sda1", x⟩ : Mount) ∈ deviceFirstTable)
    ∧ "/dev/sda1" ≠ "tmpfs"
    ∧ (⟨"/dev/sda1", "/mnt/b"⟩ : Mount) ∉ deviceFirstTable
    ∧ (∀ pre r post, deviceFirstTable = pre ++ r :: post →
        occupiedByOther "/dev/sda1" "/mnt/b" r → ∃ q ∈ pre, q.PartitionPath = "/dev/sda1")
    ∧ ∃ x, (⟨"/dev/sda1", x⟩ : Mount) ∈ deviceFirstTable ∧ x ≠ "/mnt/b"
      ∧ deviceFirstMounter.Mount "/dev/sda1" "/mnt/b" ["rw"] []
        = (Errorf ("Device " ++ "/dev/sda1" ++ " is already mounted to " ++ x
            ++ ", can't mount to " ++ "/mnt/b"), [] ++ [Event.searchMounts]) :=
  have hT : deviceFirstMounter.mountsSearcher.SearchMounts [] = (deviceFirstTable, none) :=
    rfl
  have hx : ∃ x, x ≠ "/mnt/b" ∧ (⟨"/dev/sda1", x⟩ : Mount) ∈ deviceFirstTable :=
    ⟨"/mnt/a", by decide, by decide⟩
  have htmpfs : "/dev/sda1" ≠ "tmpfs" := by decide
  have hexact : (⟨"/dev/sda1", "/mnt/b"⟩ : Mount) ∉ deviceFirstTable := by decide
  have hfirst : ∀ pre r post, deviceFirstTable = pre ++ r :: post →
      occupiedByOther "/dev/sda1" "/mnt/b" r → ∃ q ∈ pre, q.PartitionPath = "/dev/sda1" := by
    intro pre r post hsplit hocc
    rcases pre with _ | ⟨a, pre⟩
    · simp [deviceFirstTable] at hsplit
      rw [← hsplit.1] at hocc
      simp [occupiedByOther] at hocc
    · simp [deviceFirstTable] at hsplit
      exact ⟨a, List.mem_cons_self a pre, by rw [← hsplit.1]⟩
  ⟨hT, hx, htmpfs, hexact, hfirst,
    mounted_elsewhere_error deviceFirstMounter "/dev/sda1" "/mnt/b" ["rw"] []
      deviceFirstTable hT hx htmpfs hexact hfirst⟩

/-- The scan of a table in which the mount point is taken by another device
and no record of the requested device can fire the second rule: the first
record at the mount point decides. -/
theorem shouldMountLoop_occupied (p mp : String) (T : List Mount)
    (hp : p ≠ "")
    (hocc : ∃ d, d ≠ p ∧ (⟨d, mp⟩ : Mount) ∈ T)
    (hexact : (⟨p, mp⟩ : Mount) ∉ T)
    (hprio : p = "tmpfs" ∨ ∀ r ∈ T, r.PartitionPath ≠ p) :
    ∃ d, (⟨d, mp⟩ : Mount) ∈ T ∧ d ≠ p
      ∧ shouldMountLoop p mp T
        = (false, Errorf ("Device " ++ d ++ " is already mounted to " ++ mp
            ++ ", can't mount " ++ p)) := by
  induction T with
  | nil =>
    obtain ⟨d, _, hmem⟩ := hocc
    simp at hmem
  | cons r rest ih =>
    have hno1 : ¬ (r.PartitionPath = p ∧ r.MountPoint = mp) := by
      intro hc
      apply hexact
      rw [← hc.1, ← hc.2]
      exact List.mem_cons_self r rest
    have hno2 : ¬ (r.PartitionPath = p ∧ r.MountPoint ≠ mp ∧ p ≠ "tmpfs") := by
      intro hc
      rcases hprio with htmpfs | hnone
      · exact hc.2.2 htmpfs
      · exact hnone r (List.mem_cons_self r rest) hc.1
    by_cases hmp : r.MountPoint = mp
    · refine ⟨r.PartitionPath, ?_, fun hpp => hno1 ⟨hpp, hmp⟩, ?_⟩
      · rw [← hmp]
        exact List.mem_cons_self r rest
      · simp only [shouldMountLoop]
        rw [if_neg hno1, if_neg hno2, if_pos ⟨hmp, hp⟩, hmp]
    · have hocc1 : ∃ d, d ≠ p ∧ (⟨d, mp⟩ : Mount) ∈ rest := by
        obtain ⟨d, hne, hmem⟩ := hocc
        rcases List.mem_cons.mp hmem with heq | hmem
        · exact absurd (by rw [← heq]) hmp
        · exact ⟨d, hne, hmem⟩
      have hexact1 : (⟨p, mp⟩ : Mount) ∉ rest :=
        fun hmem => hexact (List.mem_cons_of_mem r hmem)
      have hprio1 : p = "tmpfs" ∨ ∀ q ∈ rest, q.PartitionPath ≠ p :=
        hprio.imp id (fun hnone q hq => hnone q (List.mem_cons_of_mem r hq))
      obtain ⟨d, hmem, hne, hscan⟩ := ih hocc1 hexact1 hprio1
      refine ⟨d, List.mem_cons_of_mem r hmem, hne, ?_⟩
      simp only [shouldMountLoop]
      rw [if_neg hno1, if_neg hno2, if_neg (fun hc => hmp hc.1)]
      exact hscan

/-- C4: for non-empty `p`, when the table has a record at mount point `m` with
another device, no record `(p, m)`, and either `p` is `tmpfs` or no record of
`p` at all, `Mount(p, m)` runs no command and fails with the error
"Device d is already mounted to m, can't mount p" for a device `d` listed at
`m`. -/
theorem mount_point_occupied_error (m : linuxMounter) (p mp : String) (opts : List String)
    (h : History) (T : List Mount)
    (hT : m.mountsSearcher.SearchMounts h = (T, none))
    (hp : p ≠ "")
    (hocc : ∃ d, d ≠ p ∧ (⟨d, mp⟩ : Mount) ∈ T)
    (hexact : (⟨p, mp⟩ : Mount) ∉ T)
    (hprio : p = "tmpfs" ∨ ∀ r ∈ T, r.PartitionPath ≠ p) :
    ∃ d, (⟨d, mp⟩ : Mount) ∈ T ∧ d ≠ p
      ∧ m.Mount p mp opts h
        = (Errorf ("Device " ++ d ++ " is already mounted to " ++ mp
            ++ ", can't mount " ++ p), h ++ [Event.searchMounts]) := by
  obtain ⟨d, hmem, hne, hscan⟩ := shouldMountLoop_occupied p mp T hp hocc hexact hprio
  exact ⟨d, hmem, hne, MountFilesystem_of_scan_false m p mp "" opts h T _ hT hscan⟩

/-- C4 (witness): `tmpfs` is mounted at two other places and `/dev/sdb1` holds
`/mnt/b`; mounting `tmpfs` at `/mnt/b` reports the mount point as occupied. -/
theorem mount_point_occupied_error_witness :
    tmpfsMounter.mountsSearcher.SearchMounts [] = (tmpfsTable, none)
    ∧ "tmpfs" ≠ ""
    ∧ (∃ d, d ≠ "tmpfs" ∧ (⟨d, "/mnt/b"⟩ : Mount) ∈ tmpfsTable)
    ∧ (⟨"tmpfs", "/mnt/b"⟩ : Mount) ∉ tmpfsTable
    ∧ ("tmpfs" = "tmpfs" ∨ ∀ r ∈ tmpfsTable, r.PartitionPath ≠ "tmpfs")
    ∧ ∃ d, (⟨d, "/mnt/b"⟩ : Mount) ∈ tmpfsTable ∧ d ≠ "tmpfs"
      ∧ tmpfsMounter.Mount "tmpfs" "/mnt/b" ["size=1m"] []
        = (Errorf ("Device " ++ d ++ " is already mounted to " ++ "/mnt/b"
            ++ ", can't mount " ++ "tmpfs"), [] ++ [Event.searchMounts]) :=
  have hT : tmpfsMounter.mountsSearcher.SearchMounts [] = (tmpfsTable, none) := rfl
  have hp : "tmpfs" ≠ "" := by decide
  have hocc : ∃ d, d ≠ "tmpfs" ∧ (⟨d, "/mnt/b"⟩ : Mount) ∈ tmpfsTable :=
    ⟨"/dev/sdb1", by decide, by decide⟩
  have hexact : (⟨"tmpfs", "/mnt/b"⟩ : Mount) ∉ tmpfsTable := by decide
  have hprio : "tmpfs" = "tmpfs" ∨ ∀ r ∈ tmpfsTable, r.PartitionPath ≠ "tmpfs" :=
    Or.inl rfl
  ⟨hT, hp, hocc, hexact, hprio,
    mount_point_occupied_error tmpfsMounter "tmpfs" "/mnt/b" ["size=1m"] []
      tmpfsTable hT hp hocc hexact hprio⟩

/-! ## The mount command -/

/-- The options loop appends one `-o <option>` pair per option, in order. -/
theorem foldl_option_pairs (opts : List String) (acc : List String) :
    opts.foldl (fun acc mountOption => acc ++ ["-o", mountOption]) acc
      = acc ++ optionArgs opts := by
  induction opts generalizing acc with
  | nil => simp [optionArgs]
  | cons o os ih => simp [List.foldl, ih, optionArgs]

/-- The argument list built by `MountFilesystem`. -/
theorem mountArgs_eq (p mp fstype : String) (opts : List String) :
    mountArgs p mp fstype opts
      = [p, mp] ++ (if fstype ≠ "" then ["-t", fstype] else []) ++ optionArgs opts := by
  unfold mountArgs
  by_cases hf : fstype ≠ ""
  · simp only [if_pos hf, foldl_option_pairs]
  · simp only [if_neg hf, foldl_option_pairs, List.append_nil]

/-- When the scan says to mount, `MountFilesystem` runs `mount` once and turns
the command's error, if any, into its result. -/
theorem MountFilesystem_of_scan_true (m : linuxMounter) (p mp fstype : String)
    (opts : List String) (h : History) (T : List Mount)
    (hT : m.mountsSearcher.SearchMounts h = (T, none))
    (hscan : shouldMountLoop p mp T = (true, none)) :
    m.MountFilesystem p mp fstype opts h
      = (match (m.runner.RunCommand (h ++ [Event.searchMounts]) "mount"
            (mountArgs p mp fstype opts)).err with
          | some e => WrapError (some e) "Shelling out to mount"
          | none => none,
         h ++ [Event.searchMounts, Event.runCommand "mount" (mountArgs p mp fstype opts)]) := by
  simp only [linuxMounter.MountFilesystem, shouldMount_of_table m p mp h T hT, hscan,
    runCommand]
  cases (m.runner.RunCommand (h ++ [Event.searchMounts]) "mount"
      (mountArgs p mp fstype opts)).err <;> simp

/-- The scan of a table with no record at the mount point, for `tmpfs`. -/
theorem shouldMountLoop_tmpfs (mp : String) (T : List Mount)
    (hfree : ∀ r ∈ T, r.MountPoint ≠ mp) :
    shouldMountLoop "tmpfs" mp T = (true, none) := by
  induction T with
  | nil => rfl
  | cons r rest ih =>
    have hmp := hfree r (List.mem_cons_self r rest)
    simp only [shouldMountLoop]
    rw [if_neg (fun hc => hmp hc.2), if_neg (fun hc => hc.2.2 rfl),
      if_neg (fun hc => hmp hc.1)]
    exact ih (fun q hq => hfree q (List.mem_cons_of_mem r hq))

/-- C5: when no record of the table has mount point `m`, however many records
are `tmpfs` mounts, `Mount("tmpfs", m, opts)` runs exactly one command,
`mount tmpfs m` followed by one `-o` pair per option, and returns nil exactly
when that command succeeds; a failure is the command's error wrapped, not a
conflict error. -/
theorem tmpfs_exempt (m : linuxMounter) (mp : String) (opts : List String)
    (h : History) (T : List Mount)
    (hT : m.mountsSearcher.SearchMounts h = (T, none))
    (hfree : ∀ r ∈ T, r.MountPoint ≠ mp) :
    (m.Mount "tmpfs" mp opts h).2
        = h ++ [Event.searchMounts,
            Event.runCommand "mount" ("tmpfs" :: mp :: optionArgs opts)]
    ∧ ((m.Mount "tmpfs" mp opts h).1 = none ↔
        (m.runner.RunCommand (h ++ [Event.searchMounts]) "mount"
          ("tmpfs" :: mp :: optionArgs opts)).err = none)
    ∧ ∀ e, (m.runner.RunCommand (h ++ [Event.searchMounts]) "mount"
          ("tmpfs" :: mp :: optionArgs opts)).err = some e →
        (m.Mount "tmpfs" mp opts h).1 = some (Error.wrap e "Shelling out to mount") := by
  have hrun := MountFilesystem_of_scan_true m "tmpfs" mp "" opts h T hT
    (shouldMountLoop_tmpfs mp T hfree)
  have hargs : mountArgs "tmpfs" mp "" opts = "tmpfs" :: mp :: optionArgs opts := by
    simp [mountArgs_eq]
  rw [hargs] at hrun
  unfold linuxMounter.Mount
  rw [hrun]
  cases (m.runner.RunCommand (h ++ [Event.searchMounts]) "mount"
      ("tmpfs" :: mp :: optionArgs opts)).err <;> simp [WrapError]

/-- C5 (witness): with `tmpfs` already at `/run` and `/dev/shm`, mounting it
at `/mnt/x` runs `mount tmpfs /mnt/x -o size=1m`. -/
theorem tmpfs_exempt_witness :
    tmpfsMounter.mountsSearcher.SearchMounts [] = (tmpfsTable, none)
    ∧ (∀ r ∈ tmpfsTable, r.MountPoint ≠ "/mnt/x")
    ∧ (tmpfsMounter.Mount "tmpfs" "/mnt/x" ["size=1m"] []).2
        = [] ++ [Event.searchMounts,
            Event.runCommand "mount" ("tmpfs" :: "/mnt/x" :: optionArgs ["size=1m"])]
    ∧ ((tmpfsMounter.Mount "tmpfs" "/mnt/x" ["size=1m"] []).1 = none ↔
        (tmpfsMounter.runner.RunCommand ([] ++ [Event.searchMounts]) "mount"
          ("tmpfs" :: "/mnt/x" :: optionArgs ["size=1m"])).err = none)
    ∧ ∀ e, (tmpfsMounter.runner.RunCommand ([] ++ [Event.searchMounts]) "mount"
          ("tmpfs" :: "/mnt/x" :: optionArgs ["size=1m"])).err = some e →
        (tmpfsMounter.Mount "tmpfs" "/mnt/x" ["size=1m"] []).1
          = some (Error.wrap e "Shelling out to mount") :=
  have hT : tmpfsMounter.mountsSearcher.SearchMounts [] = (tmpfsTable, none) := rfl
  have hfree : ∀ r ∈ tmpfsTable, r.MountPoint ≠ "/mnt/x" := by decide
  ⟨hT, hfree, tmpfs_exempt tmpfsMounter "/mnt/x" ["size=1m"] [] tmpfsTable hT hfree⟩

/-- C6: whenever `shouldMount` says to proceed, `MountFilesystem(p, m, fstype,
opts)` runs `mount` exactly once, with arguments `[p, m]`, then `-t fstype` if
`fstype` is non-empty, then one `-o` pair per option in order; it returns nil
exactly when the command succeeds and the command's error wrapped otherwise.
`Mount(p, m, opts)` is `MountFilesystem(p, m, "", opts)` and its command has
the arguments `[p, m]` and the option pairs only. -/
theorem mount_command (m : linuxMounter) (p mp fstype : String) (opts : List String)
    (h : History)
    (hproceed : (m.shouldMount p mp h).1.1 = true) :
    (m.MountFilesystem p mp fstype opts h).2
        = h ++ [Event.searchMounts,
            Event.runCommand "mount"
              ([p, mp] ++ (if fstype ≠ "" then ["-t", fstype] else []) ++ optionArgs opts)]
    ∧ ((m.MountFilesystem p mp fstype opts h).1 = none ↔
        (m.runner.RunCommand (h ++ [Event.searchMounts]) "mount"
          ([p, mp] ++ (if fstype ≠ "" then ["-t", fstype] else [])
            ++ optionArgs opts)).err = none)
    ∧ (∀ e, (m.runner.RunCommand (h ++ [Event.searchMounts]) "mount"
          ([p, mp] ++ (if fstype ≠ "" then ["-t", fstype] else [])
            ++ optionArgs opts)).err = some e →
        (m.MountFilesystem p mp fstype opts h).1
          = some (Error.wrap e "Shelling out to mount"))
    ∧ m.Mount p mp opts h = m.MountFilesystem p mp "" opts h
    ∧ (m.Mount p mp opts h).2
        = h ++ [Event.searchMounts, Event.runCommand "mount" ([p, mp] ++ optionArgs opts)] := by
  have hsearch : ∃ T, m.mountsSearcher.SearchMounts h = (T, none) := by
    cases hs : m.mountsSearcher.SearchMounts h with
    | mk T err =>
      cases err with
      | none => exact ⟨T, rfl⟩
      | some e => simp [linuxMounter.shouldMount, searchMounts, hs] at hproceed
  obtain ⟨T, hT⟩ := hsearch
  rw [shouldMount_of_table m p mp h T hT] at hproceed
  have hscan := (shouldMountLoop_true p mp T hproceed).1
  have hrun : ∀ f, m.MountFilesystem p mp f opts h = _ :=
    fun f => MountFilesystem_of_scan_true m p mp f opts h T hT hscan
  refine ⟨?_, ?_, ?_, rfl, ?_⟩
  · rw [hrun, mountArgs_eq]
  · rw [hrun, mountArgs_eq]
    cases (m.runner.RunCommand (h ++ [Event.searchMounts]) "mount"
      ([p, mp] ++ (if fstype ≠ "" then ["-t", fstype] else [])
        ++ optionArgs opts)).err <;> simp [WrapError]
  · intro e he
    rw [hrun, mountArgs_eq, he]
    rfl
  · unfold linuxMounter.Mount
    rw [hrun, mountArgs_eq]
    simp

/-- C6 (witness): mounting `/dev/sdc1` at `/mnt/c` as `ext4` with options `rw`
and `noatime`. -/
theorem mount_command_witness :
    (mountedMounter.shouldMount "/dev/sdc1" "/mnt/c" []).1.1 = true
    ∧ (mountedMounter.MountFilesystem "/dev/sdc1" "/mnt/c" "ext4" ["rw", "noatime"] []).2
        = [] ++ [Event.searchMounts,
            Event.runCommand "mount"
              (["/dev/sdc1", "/mnt/c"] ++ (if "ext4" ≠ "" then ["-t", "ext4"] else [])
                ++ optionArgs ["rw", "noatime"])]
    ∧ ((mountedMounter.MountFilesystem "/dev/sdc1" "/mnt/c" "ext4" ["rw", "noatime"] []).1
          = none ↔
        (mountedMounter.runner.RunCommand ([] ++ [Event.searchMounts]) "mount"
          (["/dev/sdc1", "/mnt/c"] ++ (if "ext4" ≠ "" then ["-t", "ext4"] else [])
            ++ optionArgs ["rw", "noatime"])).err = none)
    ∧ (∀ e, (mountedMounter.runner.RunCommand ([] ++ [Event.searchMounts]) "mount"
          (["/dev/sdc1", "/mnt/c"] ++ (if "ext4" ≠ "" then ["-t", "ext4"] else [])
            ++ optionArgs ["rw", "noatime"])).err = some e →
        (mountedMounter.MountFilesystem "/dev/sdc1" "/mnt/c" "ext4" ["rw", "noatime"] []).1
          = some (Error.wrap e "Shelling out to mount"))
    ∧ mountedMounter.Mount "/dev/sdc1" "/mnt/c" ["rw", "noatime"] []
        = mountedMounter.MountFilesystem "/dev/sdc1" "/mnt/c" "" ["rw", "noatime"] []
    ∧ (mountedMounter.Mount "/dev/sdc1" "/mnt/c" ["rw", "noatime"] []).2
        = [] ++ [Event.searchMounts,
            Event.runCommand "mount" (["/dev/sdc1", "/mnt/c"] ++ optionArgs ["rw", "noatime"])] :=
  have hproceed : (mountedMounter.shouldMount "/dev/sdc1" "/mnt/c" []).1.1 = true := by
    decide
  ⟨hproceed, mount_command mountedMounter "/dev/sdc1" "/mnt/c" "ext4" ["rw", "noatime"] []
    hproceed⟩

/-! ## The retry loop of `Unmount` -/

/-- The loop stops as soon as the last attempt succeeded. -/
theorem unmountRetryLoop_done (m : linuxMounter) (target : String) (i : Nat) (h : History) :
    unmountRetryLoop m target i none h = (none, h) := by
  rw [unmountRetryLoop]
  simp

/-- The loop stops when the counter reaches the ceiling. -/
theorem unmountRetryLoop_exhausted (m : linuxMounter) (target : String) (i : Nat)
    (err : Option Error) (h : History) (hi : m.maxUnmountRetries ≤ i) :
    unmountRetryLoop m target i err h = (err, h) := by
  rw [unmountRetryLoop]
  rw [if_neg (fun hc => absurd hc.1 (Nat.not_lt.mpr hi))]

/-- One iteration: sleep, run `umount` again, go on with its error. -/
theorem unmountRetryLoop_step (m : linuxMounter) (target : String) (i : Nat)
    (err : Option Error) (h : History) (hi : i < m.maxUnmountRetries) (herr : err ≠ none) :
    unmountRetryLoop m target i err h
      = unmountRetryLoop m target (i + 1)
          (m.runner.RunCommand (h ++ [Event.sleep m.unmountRetrySleep]) "umount" [target]).err
          (h ++ [Event.sleep m.unmountRetrySleep, Event.runCommand "umount" [target]]) := by
  rw [unmountRetryLoop]
  rw [if_pos ⟨hi, herr⟩]
  simp [sleep, runCommand]

/-- Retries are appended at the end of the events of the retries before. -/
theorem retryEvents_succ_snoc (d : Int) (target : String) (k : Nat) :
    retryEvents d target (k + 1)
      = retryEvents d target k ++ [Event.sleep d, Event.runCommand "umount" [target]] := by
  induction k with
  | zero => rfl
  | succ k ih =>
    show Event.sleep d :: Event.runCommand "umount" [target] :: retryEvents d target (k + 1)
      = (Event.sleep d :: Event.runCommand "umount" [target] :: retryEvents d target k)
        ++ [Event.sleep d, Event.runCommand "umount" [target]]
    rw [ih]
    rfl

/-- A run of `n` failed retries: the loop arrives at counter `i + n` with the
error of the last retry, its history grown by the events of `n` retries. -/
theorem unmountRetryLoop_failed_retries (m : linuxMounter) (target : String) (n : Nat) :
    ∀ (i : Nat) (err : Option Error) (h : History),
      err ≠ none →
      (∀ j, j < n → i + j < m.maxUnmountRetries) →
      (∀ j, j < n →
        (m.runner.RunCommand
          (h ++ retryEvents m.unmountRetrySleep target j ++ [Event.sleep m.unmountRetrySleep])
          "umount" [target]).err ≠ none) →
      ∃ err1, err1 ≠ none
        ∧ unmountRetryLoop m target i err h
          = unmountRetryLoop m target (i + n) err1
              (h ++ retryEvents m.unmountRetrySleep target n)
        ∧ (n = 0 → err1 = err)
        ∧ (∀ k, n = k + 1 →
            err1 = (m.runner.RunCommand
              (h ++ retryEvents m.unmountRetrySleep target k
                ++ [Event.sleep m.unmountRetrySleep]) "umount" [target]).err) := by
  induction n with
  | zero =>
    intro i err h herr _ _
    exact ⟨err, herr, by simp [retryEvents], fun _ => rfl, fun k hk => by omega⟩
  | succ n ih =>
    intro i err h herr hbound hfail
    have hi : i < m.maxUnmountRetries := by
      have := hbound 0 (Nat.succ_pos n)
      simpa using this
    have hc0 := hfail 0 (Nat.succ_pos n)
    simp only [retryEvents, List.append_nil] at hc0
    have hbound1 : ∀ j, j < n → i + 1 + j < m.maxUnmountRetries := by
      intro j hj
      have := hbound (j + 1) (Nat.succ_lt_succ hj)
      omega
    have hshift : ∀ j,
        h ++ [Event.sleep m.unmountRetrySleep, Event.runCommand "umount" [target]]
          ++ retryEvents m.unmountRetrySleep target j
        = h ++ retryEvents m.unmountRetrySleep target (j + 1) := by
      intro j
      simp [retryEvents]
    have hfail1 : ∀ j, j < n →
        (m.runner.RunCommand
          (h ++ [Event.sleep m.unmountRetrySleep, Event.runCommand "umount" [target]]
            ++ retryEvents m.unmountRetrySleep target j ++ [Event.sleep m.unmountRetrySleep])
          "umount" [target]).err ≠ none := by
      intro j hj
      rw [hshift j]
      exact hfail (j + 1) (Nat.succ_lt_succ hj)
    obtain ⟨err1, herr1, hloop, hzero, hsucc⟩ := ih (i + 1) _ _ hc0 hbound1 hfail1
    refine ⟨err1, herr1, ?_, fun hn => by omega, ?_⟩
    · rw [unmountRetryLoop_step m target i err h hi herr, hloop, hshift n]
      have hidx : i + 1 + n = i + (n + 1) := by omega
      rw [hidx]
    · intro k hk
      have hkn : k = n := by omega
      subst hkn
      cases k with
      | zero =>
        rw [hzero rfl]
        simp [retryEvents]
      | succ k =>
        rw [hsucc k rfl, hshift k]

/-- When `searchMounts` succeeds, `IsMounted` is the scan of the table it
returned and reads the table once. -/
theorem IsMounted_of_table (m : linuxMounter) (target : String) (h : History)
    (T : List Mount) (hT : m.mountsSearcher.SearchMounts h = (T, none)) :
    m.IsMounted target h = (isMountedLoop target T, h ++ [Event.searchMounts]) := by
  simp [linuxMounter.IsMounted, searchMounts, hT]

/-- The scan of `IsMounted` finds a record that names the target. -/
theorem isMountedLoop_of_mem (target : String) (T : List Mount)
    (hmounted : ∃ r ∈ T, r.PartitionPath = target ∨ r.MountPoint = target) :
    isMountedLoop target T = (true, none) := by
  induction T with
  | nil =>
    obtain ⟨r, hr, _⟩ := hmounted
    simp at hr
  | cons q rest ih =>
    simp only [isMountedLoop]
    by_cases hq : q.PartitionPath = target ∨ q.MountPoint = target
    · rw [if_pos hq]
    · rw [if_neg hq]
      apply ih
      obtain ⟨r, hr, hrt⟩ := hmounted
      rcases List.mem_cons.mp hr with heq | hr
      · exact absurd (heq ▸ hrt) hq
      · exact ⟨r, hr, hrt⟩

/-- The scan of `IsMounted` over a table that does not name the target. -/
theorem isMountedLoop_of_not_mem (target : String) (T : List Mount)
    (hfree : ∀ r ∈ T, r.PartitionPath ≠ target ∧ r.MountPoint ≠ target) :
    isMountedLoop target T = (false, none) := by
  induction T with
  | nil => rfl
  | cons q rest ih =>
    have hq := hfree q (List.mem_cons_self q rest)
    simp only [isMountedLoop]
    rw [if_neg (fun hc => hc.elim hq.1 hq.2)]
    exact ih (fun r hr => hfree r (List.mem_cons_of_mem q hr))

/-- `Unmount` of a mounted target: one attempt, then the retry loop. -/
theorem Unmount_of_mounted (m : linuxMounter) (target : String) (h : History)
    (T : List Mount) (hT : m.mountsSearcher.SearchMounts h = (T, none))
    (hmounted : ∃ r ∈ T, r.PartitionPath = target ∨ r.MountPoint = target) :
    m.Unmount target h
      = ((decide ((unmountRetryLoop m target 1
              (m.runner.RunCommand (h ++ [Event.searchMounts]) "umount" [target]).err
              (h ++ [Event.searchMounts, Event.runCommand "umount" [target]])).1 = none),
          (unmountRetryLoop m target 1
              (m.runner.RunCommand (h ++ [Event.searchMounts]) "umount" [target]).err
              (h ++ [Event.searchMounts, Event.runCommand "umount" [target]])).1),
         (unmountRetryLoop m target 1
              (m.runner.RunCommand (h ++ [Event.searchMounts]) "umount" [target]).err
              (h ++ [Event.searchMounts, Event.runCommand "umount" [target]])).2) := by
  simp [linuxMounter.Unmount, IsMounted_of_table m target h T hT,
    isMountedLoop_of_mem target T hmounted, runCommand]

/-- When every `umount` fails, `Unmount` of a mounted target makes one attempt
and `maxUnmountRetries - 1` retries and returns the error of the last one. -/
theorem Unmount_all_fail (m : linuxMounter) (target : String) (h : History)
    (T : List Mount) (hT : m.mountsSearcher.SearchMounts h = (T, none))
    (hmounted : ∃ r ∈ T, r.PartitionPath = target ∨ r.MountPoint = target)
    (hfail : ∀ h1, (m.runner.RunCommand h1 "umount" [target]).err ≠ none) :
    ∃ e, m.Unmount target h
        = ((false, some e),
           h ++ Event.searchMounts :: Event.runCommand "umount" [target]
             :: retryEvents m.unmountRetrySleep target (m.maxUnmountRetries - 1))
      ∧ (m.runner.RunCommand
          (h ++ Event.searchMounts :: Event.runCommand "umount" [target]
            :: retryEvents m.unmountRetrySleep target (m.maxUnmountRetries - 1)).dropLast
          "umount" [target]).err = some e := by
  obtain ⟨err1, herr1, hloop, hzero, hsucc⟩ :=
    unmountRetryLoop_failed_retries m target (m.maxUnmountRetries - 1) 1
      (m.runner.RunCommand (h ++ [Event.searchMounts]) "umount" [target]).err
      (h ++ [Event.searchMounts, Event.runCommand "umount" [target]])
      (hfail _) (fun j hj => by omega) (fun j _ => hfail _)
  rw [unmountRetryLoop_exhausted m target _ err1 _ (by omega)] at hloop
  obtain ⟨e, he⟩ := Option.ne_none_iff_exists'.mp herr1
  refine ⟨e, ?_, ?_⟩
  · rw [Unmount_of_mounted m target h T hT hmounted, hloop, he]
    simp
  · rw [← he]
    cases hn : m.maxUnmountRetries - 1 with
    | zero =>
      rw [hzero hn]
      have hlast : h ++ Event.searchMounts :: Event.runCommand "umount" [target]
            :: retryEvents m.unmountRetrySleep target 0
          = (h ++ [Event.searchMounts]) ++ [Event.runCommand "umount" [target]] := by
        simp [retryEvents]
      rw [hlast, List.dropLast_concat]
    | succ k =>
      rw [hsucc k hn]
      have hlast : h ++ Event.searchMounts :: Event.runCommand "umount" [target]
            :: retryEvents m.unmountRetrySleep target (k + 1)
          = (h ++ [Event.searchMounts, Event.runCommand "umount" [target]]
              ++ retryEvents m.unmountRetrySleep target k
              ++ [Event.sleep m.unmountRetrySleep])
            ++ [Event.runCommand "umount" [target]] := by
        rw [retryEvents_succ_snoc]
        simp
      rw [hlast, List.dropLast_concat]

/-- The events of `k` retries contain `k` runs of `umount target`. -/
theorem invocations_retryEvents (d : Int) (target : String) (k : Nat) :
    invocations "umount" [target] (retryEvents d target k) = k := by
  induction k with
  | zero => rfl
  | succ k ih =>
    unfold invocations at ih ⊢
    simp [retryEvents, ih]

/-- The events of `k` retries contain `k` sleeps of the configured length. -/
theorem count_sleep_retryEvents (d : Int) (target : String) (k : Nat) :
    (retryEvents d target k).count (Event.sleep d) = k := by
  induction k with
  | zero => rfl
  | succ k ih => simp [retryEvents, ih]

/-- The events of retries contain no read of the mount table. -/
theorem count_searchMounts_retryEvents (d : Int) (target : String) (k : Nat) :
    (retryEvents d target k).count Event.searchMounts = 0 := by
  induction k with
  | zero => rfl
  | succ k ih => simp [retryEvents, ih]

/-- Counting the runs of a command over two histories put end to end. -/
theorem invocations_append (name : String) (args : List String) (h1 h2 : History) :
    invocations name args (h1 ++ h2) = invocations name args h1 + invocations name args h2 := by
  simp [invocations, List.count_append]

/-- When the first `N - 1` runs of `umount target` fail and the `N`-th
succeeds, with `N` within the ceiling, `Unmount` of a mounted target makes `N`
attempts, sleeping before each retry, and succeeds. -/
theorem Unmount_succeeds_on_attempt (m : linuxMounter) (target : String) (N : Nat)
    (h : History) (T : List Mount)
    (hT : m.mountsSearcher.SearchMounts h = (T, none))
    (hmounted : ∃ r ∈ T, r.PartitionPath = target ∨ r.MountPoint = target)
    (hN1 : 1 ≤ N) (hN : N ≤ m.maxUnmountRetries ∨ N = 1)
    (hfail : ∀ h1, invocations "umount" [target] h1
        < invocations "umount" [target] h + (N - 1) →
      (m.runner.RunCommand h1 "umount" [target]).err ≠ none)
    (hok : ∀ h1, invocations "umount" [target] h1
        = invocations "umount" [target] h + (N - 1) →
      (m.runner.RunCommand h1 "umount" [target]).err = none) :
    m.Unmount target h
      = ((true, none),
         h ++ Event.searchMounts :: Event.runCommand "umount" [target]
           :: retryEvents m.unmountRetrySleep target (N - 1)) := by
  have hcount1 : invocations "umount" [target] (h ++ [Event.searchMounts])
      = invocations "umount" [target] h := by
    simp [invocations]
  have hcount2 : ∀ j, invocations "umount" [target]
      (h ++ [Event.searchMounts, Event.runCommand "umount" [target]]
        ++ retryEvents m.unmountRetrySleep target j ++ [Event.sleep m.unmountRetrySleep])
      = invocations "umount" [target] h + 1 + j := by
    intro j
    rw [invocations_append, invocations_append, invocations_retryEvents]
    simp [invocations]
  rw [Unmount_of_mounted m target h T hT hmounted]
  obtain ⟨k, rfl⟩ : ∃ k, N = k + 1 := ⟨N - 1, by omega⟩
  cases k with
  | zero =>
    have hc0 := hok (h ++ [Event.searchMounts]) (by rw [hcount1]; rfl)
    rw [hc0, unmountRetryLoop_done]
    simp [retryEvents]
  | succ k =>
    have hmax : k + 2 ≤ m.maxUnmountRetries := by omega
    have hc0 := hfail (h ++ [Event.searchMounts]) (by rw [hcount1]; omega)
    obtain ⟨err1, herr1, hloop, _, _⟩ :=
      unmountRetryLoop_failed_retries m target k 1
        (m.runner.RunCommand (h ++ [Event.searchMounts]) "umount" [target]).err
        (h ++ [Event.searchMounts, Event.runCommand "umount" [target]])
        hc0 (fun j hj => by omega)
        (fun j hj => hfail _ (by rw [hcount2 j]; omega))
    have hlast := hok _ (by rw [hcount2 k]; omega)
    rw [hloop, unmountRetryLoop_step m target (1 + k) err1 _ (by omega) herr1, hlast,
      unmountRetryLoop_done]
    have hk : k + 1 + 1 - 1 = k + 1 := by omega
    rw [hk, retryEvents_succ_snoc]
    simp

/-! ## Unmount -/

/-- C7: for the mounter built by `NewLinuxMounter`, a mounted target and
`1 ≤ N ≤ 600`, when the runner fails the first `N - 1` runs of `umount target`
and succeeds on the `N`-th, `Unmount(target)` returns `(true, nil)`; the
history grows by one read of the mount table, the first `umount target`, and
`N - 1` times a sleep of the configured length followed by `umount target`:
`N` runs of the command, `N - 1` sleeps, one table read. -/
theorem unmount_retry (fs : FileSystem) (runner : CmdRunner) (searcher : MountsSearcher)
    (d : Int) (target : String) (N : Nat) (h : History) (T : List Mount)
    (hT : searcher.SearchMounts h = (T, none))
    (hmounted : ∃ r ∈ T, r.PartitionPath = target ∨ r.MountPoint = target)
    (hN1 : 1 ≤ N) (hN : N ≤ 600)
    (hfail : ∀ h1, invocations "umount" [target] h1
        < invocations "umount" [target] h + (N - 1) →
      (runner.RunCommand h1 "umount" [target]).err ≠ none)
    (hok : ∀ h1, invocations "umount" [target] h1
        = invocations "umount" [target] h + (N - 1) →
      (runner.RunCommand h1 "umount" [target]).err = none) :
    (NewLinuxMounter fs runner searcher d).Unmount target h
        = ((true, none),
           h ++ Event.searchMounts :: Event.runCommand "umount" [target]
             :: retryEvents d target (N - 1))
    ∧ invocations "umount" [target]
          ((NewLinuxMounter fs runner searcher d).Unmount target h).2
        = invocations "umount" [target] h + N
    ∧ (((NewLinuxMounter fs runner searcher d).Unmount target h).2).count (Event.sleep d)
        = h.count (Event.sleep d) + (N - 1)
    ∧ (((NewLinuxMounter fs runner searcher d).Unmount target h).2).count Event.searchMounts
        = h.count Event.searchMounts + 1 := by
  have hrun := Unmount_succeeds_on_attempt (NewLinuxMounter fs runner searcher d) target N h T
    hT hmounted hN1 (Or.inl hN) hfail hok
  have hd : (NewLinuxMounter fs runner searcher d).unmountRetrySleep = d := rfl
  rw [hd] at hrun
  rw [hrun]
  refine ⟨rfl, ?_, ?_, ?_⟩
  · have hsplit : h ++ Event.searchMounts :: Event.runCommand "umount" [target]
          :: retryEvents d target (N - 1)
        = h ++ [Event.searchMounts, Event.runCommand "umount" [target]]
          ++ retryEvents d target (N - 1) := by simp
    show invocations "umount" [target] (h ++ Event.searchMounts
      :: Event.runCommand "umount" [target] :: retryEvents d target (N - 1)) = _
    rw [hsplit, invocations_append, invocations_append, invocations_retryEvents]
    simp [invocations]
    omega
  · simp [List.count_append, List.count_cons, count_sleep_retryEvents]
  · simp [List.count_append, List.count_cons, count_searchMounts_retryEvents]

/-- C7 (witness): `umount /mnt/a` is busy twice; the third attempt succeeds. -/
theorem unmount_retry_witness :
    (fixedSearcher mountedTable).SearchMounts [] = (mountedTable, none)
    ∧ (∃ r ∈ mountedTable, r.PartitionPath = "/mnt/a" ∨ r.MountPoint = "/mnt/a")
    ∧ 1 ≤ 3 ∧ 3 ≤ 600
    ∧ (∀ h1, invocations "umount" ["/mnt/a"] h1
          < invocations "umount" ["/mnt/a"] [] + (3 - 1) →
        (busyTwiceRunner.RunCommand h1 "umount" ["/mnt/a"]).err ≠ none)
    ∧ (∀ h1, invocations "umount" ["/mnt/a"] h1
          = invocations "umount" ["/mnt/a"] [] + (3 - 1) →
        (busyTwiceRunner.RunCommand h1 "umount" ["/mnt/a"]).err = none)
    ∧ (NewLinuxMounter okFs busyTwiceRunner (fixedSearcher mountedTable) 1000000000).Unmount
          "/mnt/a" []
        = ((true, none),
           [] ++ Event.searchMounts :: Event.runCommand "umount" ["/mnt/a"]
             :: retryEvents 1000000000 "/mnt/a" (3 - 1))
    ∧ invocations "umount" ["/mnt/a"]
          ((NewLinuxMounter okFs busyTwiceRunner (fixedSearcher mountedTable)
            1000000000).Unmount "/mnt/a" []).2
        = invocations "umount" ["/mnt/a"] [] + 3
    ∧ (((NewLinuxMounter okFs busyTwiceRunner (fixedSearcher mountedTable)
            1000000000).Unmount "/mnt/a" []).2).count (Event.sleep 1000000000)
        = ([] : History).count (Event.sleep 1000000000) + (3 - 1)
    ∧ (((NewLinuxMounter okFs busyTwiceRunner (fixedSearcher mountedTable)
            1000000000).Unmount "/mnt/a" []).2).count Event.searchMounts
        = ([] : History).count Event.searchMounts + 1 :=
  have hT : (fixedSearcher mountedTable).SearchMounts [] = (mountedTable, none) := rfl
  have hmounted : ∃ r ∈ mountedTable, r.PartitionPath = "/mnt/a" ∨ r.MountPoint = "/mnt/a" :=
    ⟨⟨"/dev/sda1", "/mnt/a"⟩, by decide, Or.inr rfl⟩
  have hfail : ∀ h1, invocations "umount" ["/mnt/a"] h1
        < invocations "umount" ["/mnt/a"] [] + (3 - 1) →
      (busyTwiceRunner.RunCommand h1 "umount" ["/mnt/a"]).err ≠ none := by
    intro h1 hlt
    have hlt2 : invocations "umount" ["/mnt/a"] h1 < 2 := by
      simpa [invocations] using hlt
    simp [busyTwiceRunner, hlt2]
  have hok : ∀ h1, invocations "umount" ["/mnt/a"] h1
        = invocations "umount" ["/mnt/a"] [] + (3 - 1) →
      (busyTwiceRunner.RunCommand h1 "umount" ["/mnt/a"]).err = none := by
    intro h1 heq
    have heq2 : invocations "umount" ["/mnt/a"] h1 = 2 := by
      simpa [invocations] using heq
    simp [busyTwiceRunner, heq2]
  ⟨hT, hmounted, by decide, by decide, hfail, hok,
    unmount_retry okFs busyTwiceRunner (fixedSearcher mountedTable) 1000000000 "/mnt/a" 3 []
      mountedTable hT hmounted (by decide) (by decide) hfail hok⟩

/-- C8: for the mounter built by `NewLinuxMounter` and a mounted target, when
every run of `umount target` fails, `Unmount(target)` returns `(false, err)`
after the first attempt and 599 retries, 600 runs of the command in all, and
`err` is the error of the 600th run. -/
theorem unmount_exhaustion (fs : FileSystem) (runner : CmdRunner) (searcher : MountsSearcher)
    (d : Int) (target : String) (h : History) (T : List Mount)
    (hT : searcher.SearchMounts h = (T, none))
    (hmounted : ∃ r ∈ T, r.PartitionPath = target ∨ r.MountPoint = target)
    (hfail : ∀ h1, (runner.RunCommand h1 "umount" [target]).err ≠ none) :
    ∃ e, (NewLinuxMounter fs runner searcher d).Unmount target h
        = ((false, some e),
           h ++ Event.searchMounts :: Event.runCommand "umount" [target]
             :: retryEvents d target 599)
      ∧ (runner.RunCommand
          (h ++ Event.searchMounts :: Event.runCommand "umount" [target]
            :: (retryEvents d target 598 ++ [Event.sleep d]))
          "umount" [target]).err = some e
      ∧ invocations "umount" [target]
          ((NewLinuxMounter fs runner searcher d).Unmount target h).2
        = invocations "umount" [target] h + 600 := by
  obtain ⟨e, hrun, hlast⟩ :=
    Unmount_all_fail (NewLinuxMounter fs runner searcher d) target h T hT hmounted hfail
  have hd : (NewLinuxMounter fs runner searcher d).unmountRetrySleep = d := rfl
  have hmax : (NewLinuxMounter fs runner searcher d).maxUnmountRetries - 1 = 599 := rfl
  have hr : (NewLinuxMounter fs runner searcher d).runner = runner := rfl
  rw [hd, hmax] at hrun hlast
  rw [hr] at hlast
  refine ⟨e, hrun, ?_, ?_⟩
  · have hsnoc : h ++ Event.searchMounts :: Event.runCommand "umount" [target]
          :: retryEvents d target 599
        = (h ++ Event.searchMounts :: Event.runCommand "umount" [target]
            :: (retryEvents d target 598 ++ [Event.sleep d]))
          ++ [Event.runCommand "umount" [target]] := by
      rw [retryEvents_succ_snoc d target 598]
      simp
    rw [hsnoc, List.dropLast_concat] at hlast
    exact hlast
  · rw [hrun]
    have hsplit : h ++ Event.searchMounts :: Event.runCommand "umount" [target]
          :: retryEvents d target 599
        = h ++ [Event.searchMounts, Event.runCommand "umount" [target]]
          ++ retryEvents d target 599 := by simp
    show invocations "umount" [target] (h ++ Event.searchMounts
      :: Event.runCommand "umount" [target] :: retryEvents d target 599) = _
    rw [hsplit, invocations_append, invocations_append, invocations_retryEvents]
    simp [invocations]

/-- C8 (witness): every command fails; `Unmount(/mnt/a)` gives up after 600
runs of `umount /mnt/a`. -/
theorem unmount_exhaustion_witness :
    (fixedSearcher mountedTable).SearchMounts [] = (mountedTable, none)
    ∧ (∃ r ∈ mountedTable, r.PartitionPath = "/mnt/a" ∨ r.MountPoint = "/mnt/a")
    ∧ (∀ h1, (failingRunner.RunCommand h1 "umount" ["/mnt/a"]).err ≠ none)
    ∧ ∃ e, (NewLinuxMounter okFs failingRunner (fixedSearcher mountedTable)
              1000000000).Unmount "/mnt/a" []
        = ((false, some e),
           [] ++ Event.searchMounts :: Event.runCommand "umount" ["/mnt/a"]
             :: retryEvents 1000000000 "/mnt/a" 599)
      ∧ (failingRunner.RunCommand
          ([] ++ Event.searchMounts :: Event.runCommand "umount" ["/mnt/a"]
            :: (retryEvents 1000000000 "/mnt/a" 598 ++ [Event.sleep 1000000000]))
          "umount" ["/mnt/a"]).err = some e
      ∧ invocations "umount" ["/mnt/a"]
          ((NewLinuxMounter okFs failingRunner (fixedSearcher mountedTable)
              1000000000).Unmount "/mnt/a" []).2
        = invocations "umount" ["/mnt/a"] [] + 600 :=
  have hT : (fixedSearcher mountedTable).SearchMounts [] = (mountedTable, none) := rfl
  have hmounted : ∃ r ∈ mountedTable, r.PartitionPath = "/mnt/a" ∨ r.MountPoint = "/mnt/a" :=
    ⟨⟨"/dev/sda1", "/mnt/a"⟩, by decide, Or.inr rfl⟩
  have hfail : ∀ h1, (failingRunner.RunCommand h1 "umount" ["/mnt/a"]).err ≠ none := by
    intro h1
    simp [failingRunner]
  ⟨hT, hmounted, hfail,
    unmount_exhaustion okFs failingRunner (fixedSearcher mountedTable) 1000000000 "/mnt/a" []
      mountedTable hT hmounted hfail⟩

/-- C9: when no record of the table has `target` as partition path or mount
point, `Unmount(target)` returns `(false, nil)`; the history grows by the
table read only: no command, no sleep. -/
theorem unmount_noop (m : linuxMounter) (target : String) (h : History) (T : List Mount)
    (hT : m.mountsSearcher.SearchMounts h = (T, none))
    (hfree : ∀ r ∈ T, r.PartitionPath ≠ target ∧ r.MountPoint ≠ target) :
    m.Unmount target h = ((false, none), h ++ [Event.searchMounts]) := by
  simp [linuxMounter.Unmount, IsMounted_of_table m target h T hT,
    isMountedLoop_of_not_mem target T hfree]

/-- C9 (witness): `/mnt/c` is not in the table. -/
theorem unmount_noop_witness :
    failingMounter.mountsSearcher.SearchMounts [] = (mountedTable, none)
    ∧ (∀ r ∈ mountedTable, r.PartitionPath ≠ "/mnt/c" ∧ r.MountPoint ≠ "/mnt/c")
    ∧ failingMounter.Unmount "/mnt/c" [] = ((false, none), [] ++ [Event.searchMounts]) :=
  have hT : failingMounter.mountsSearcher.SearchMounts [] = (mountedTable, none) := rfl
  have hfree : ∀ r ∈ mountedTable, r.PartitionPath ≠ "/mnt/c" ∧ r.MountPoint ≠ "/mnt/c" := by
    decide
  ⟨hT, hfree, unmount_noop failingMounter "/mnt/c" [] mountedTable hT hfree⟩

/-! ## Remount -/

/-- When `searchMounts` succeeds, `IsMountPoint` is the scan of the table it
returned and reads the table once. -/
theorem IsMountPoint_of_table (m : linuxMounter) (path : String) (h : History)
    (T : List Mount) (hT : m.mountsSearcher.SearchMounts h = (T, none)) :
    m.IsMountPoint path h = (isMountPointLoop path T, h ++ [Event.searchMounts]) := by
  simp [linuxMounter.IsMountPoint, searchMounts, hT]

/-- The scan of `IsMountPoint` finds a record at the path. -/
theorem isMountPointLoop_of_mem (path : String) (T : List Mount)
    (hfound : ∃ r ∈ T, r.MountPoint = path) :
    ∃ dev, (⟨dev, path⟩ : Mount) ∈ T ∧ isMountPointLoop path T = (dev, true, none) := by
  induction T with
  | nil =>
    obtain ⟨r, hr, _⟩ := hfound
    simp at hr
  | cons q rest ih =>
    simp only [isMountPointLoop]
    by_cases hq : q.MountPoint = path
    · rw [if_pos hq]
      refine ⟨q.PartitionPath, ?_, rfl⟩
      rw [← hq]
      exact List.mem_cons_self q rest
    · rw [if_neg hq]
      obtain ⟨r, hr, hrp⟩ := hfound
      rcases List.mem_cons.mp hr with heq | hr
      · exact absurd (heq ▸ hrp) hq
      · obtain ⟨dev, hmem, hscan⟩ := ih ⟨r, hr, hrp⟩
        exact ⟨dev, List.mem_cons_of_mem q hmem, hscan⟩

/-- The events of retries contain no `mount` command. -/
theorem mount_not_mem_retryEvents (d : Int) (target : String) (k : Nat) (args : List String) :
    Event.runCommand "mount" args ∉ retryEvents d target k := by
  induction k with
  | zero => simp [retryEvents]
  | succ k ih =>
    simp only [retryEvents, List.mem_cons, not_or]
    refine ⟨by simp, ?_, ih⟩
    intro hc
    have hname : "mount" = "umount" := (Event.runCommand.inj hc).1
    exact absurd hname (by decide)

/-- C10: when `from` is the mount point of a record of the table, the table
read again by `Unmount` still lists `from`, and every run of `umount from`
fails, `Remount(from, to, opts)` returns the error of the last `umount`
attempt wrapped as "Unmounting from"; after the two table reads the history
holds the `umount` attempts and their sleeps only, no `mount` command. -/
theorem remount_unmount_failure (m : linuxMounter) (fromMountPoint toMountPoint : String)
    (opts : List String) (h : History) (T T2 : List Mount)
    (hT : m.mountsSearcher.SearchMounts h = (T, none))
    (hfrom : ∃ r ∈ T, r.MountPoint = fromMountPoint)
    (hT2 : m.mountsSearcher.SearchMounts (h ++ [Event.searchMounts]) = (T2, none))
    (hstill : ∃ r ∈ T2, r.PartitionPath = fromMountPoint ∨ r.MountPoint = fromMountPoint)
    (hfail : ∀ h1, (m.runner.RunCommand h1 "umount" [fromMountPoint]).err ≠ none) :
    ∃ e, m.Remount fromMountPoint toMountPoint opts h
        = (some (Error.wrap e ("Unmounting " ++ fromMountPoint)),
           h ++ Event.searchMounts :: Event.searchMounts
             :: Event.runCommand "umount" [fromMountPoint]
             :: retryEvents m.unmountRetrySleep fromMountPoint (m.maxUnmountRetries - 1))
      ∧ (m.runner.RunCommand (m.Remount fromMountPoint toMountPoint opts h).2.dropLast
          "umount" [fromMountPoint]).err = some e
      ∧ ∀ args, Event.runCommand "mount" args
          ∉ Event.searchMounts :: Event.searchMounts
             :: Event.runCommand "umount" [fromMountPoint]
             :: retryEvents m.unmountRetrySleep fromMountPoint (m.maxUnmountRetries - 1) := by
  obtain ⟨dev, _, hscan⟩ := isMountPointLoop_of_mem fromMountPoint T hfrom
  obtain ⟨e, hrun, hlast⟩ :=
    Unmount_all_fail m fromMountPoint (h ++ [Event.searchMounts]) T2 hT2 hstill hfail
  have hremount : m.Remount fromMountPoint toMountPoint opts h
      = (some (Error.wrap e ("Unmounting " ++ fromMountPoint)),
         h ++ Event.searchMounts :: Event.searchMounts
           :: Event.runCommand "umount" [fromMountPoint]
           :: retryEvents m.unmountRetrySleep fromMountPoint (m.maxUnmountRetries - 1)) := by
    simp [linuxMounter.Remount, IsMountPoint_of_table m fromMountPoint h T hT, hscan, hrun,
      WrapError]
  refine ⟨e, hremount, ?_, ?_⟩
  · rw [hremount]
    have hassoc : h ++ Event.searchMounts :: Event.searchMounts
          :: Event.runCommand "umount" [fromMountPoint]
          :: retryEvents m.unmountRetrySleep fromMountPoint (m.maxUnmountRetries - 1)
        = h ++ [Event.searchMounts] ++ Event.searchMounts
          :: Event.runCommand "umount" [fromMountPoint]
          :: retryEvents m.unmountRetrySleep fromMountPoint (m.maxUnmountRetries - 1) := by
      simp
    show (m.runner.RunCommand (h ++ Event.searchMounts :: Event.searchMounts
          :: Event.runCommand "umount" [fromMountPoint]
          :: retryEvents m.unmountRetrySleep fromMountPoint
            (m.maxUnmountRetries - 1)).dropLast "umount" [fromMountPoint]).err = some e
    rw [hassoc]
    exact hlast
  · intro args hmem
    simp only [List.mem_cons] at hmem
    rcases hmem with hc | hc | hc | hc
    · cases hc
    · cases hc
    · have hname : "mount" = "umount" := (Event.runCommand.inj hc).1
      exact absurd hname (by decide)
    · exact mount_not_mem_retryEvents _ _ _ args hc

/-- C10 (witness): `/mnt/a` is mounted and every command fails;
`Remount(/mnt/a, /mnt/c, ro)` stops at the failed unmount. -/
theorem remount_unmount_failure_witness :
    failingMounter.mountsSearcher.SearchMounts [] = (mountedTable, none)
    ∧ (∃ r ∈ mountedTable, r.MountPoint = "/mnt/a")
    ∧ failingMounter.mountsSearcher.SearchMounts ([] ++ [Event.searchMounts])
        = (mountedTable, none)
    ∧ (∃ r ∈ mountedTable, r.PartitionPath = "/mnt/a" ∨ r.MountPoint = "/mnt/a")
    ∧ (∀ h1, (failingMounter.runner.RunCommand h1 "umount" ["/mnt/a"]).err ≠ none)
    ∧ ∃ e, failingMounter.Remount "/mnt/a" "/mnt/c" ["ro"] []
        = (some (Error.wrap e ("Unmounting " ++ "/mnt/a")),
           [] ++ Event.searchMounts :: Event.searchMounts
             :: Event.runCommand "umount" ["/mnt/a"]
             :: retryEvents failingMounter.unmountRetrySleep "/mnt/a"
                  (failingMounter.maxUnmountRetries - 1))
      ∧ (failingMounter.runner.RunCommand
            (failingMounter.Remount "/mnt/a" "/mnt/c" ["ro"] []).2.dropLast
          "umount" ["/mnt/a"]).err = some e
      ∧ ∀ args, Event.runCommand "mount" args
          ∉ Event.searchMounts :: Event.searchMounts
             :: Event.runCommand "umount" ["/mnt/a"]
             :: retryEvents failingMounter.unmountRetrySleep "/mnt/a"
                  (failingMounter.maxUnmountRetries - 1) :=
  have hT : failingMounter.mountsSearcher.SearchMounts [] = (mountedTable, none) := rfl
  have hfrom : ∃ r ∈ mountedTable, r.MountPoint = "/mnt/a" :=
    ⟨⟨"/dev/sda1", "/mnt/a"⟩, by decide, rfl⟩
  have hT2 : failingMounter.mountsSearcher.SearchMounts ([] ++ [Event.searchMounts])
      = (mountedTable, none) := rfl
  have hstill : ∃ r ∈ mountedTable, r.PartitionPath = "/mnt/a" ∨ r.MountPoint = "/mnt/a" :=
    ⟨⟨"/dev/sda1", "/mnt/a"⟩, by decide, Or.inr rfl⟩
  have hfail : ∀ h1, (failingMounter.runner.RunCommand h1 "umount" ["/mnt/a"]).err ≠ none := by
    intro h1
    simp [failingMounter, NewLinuxMounter, failingRunner]
  ⟨hT, hfrom, hT2, hstill, hfail,
    remount_unmount_failure failingMounter "/mnt/a" "/mnt/c" ["ro"] [] mountedTable
      mountedTable hT hfrom hT2 hstill hfail⟩

/-! ## When `Mount` acts -/

/-- A table on which no rule fires makes the scan say to mount. -/
theorem shouldMountLoop_of_clear (p mp : String) (T : List Mount)
    (hclear : ∀ r ∈ T, ¬ (r.PartitionPath = p ∧ r.MountPoint = mp)
      ∧ ¬ mountedElsewhere p mp r ∧ ¬ occupiedByOther p mp r) :
    shouldMountLoop p mp T = (true, none) := by
  induction T with
  | nil => rfl
  | cons r rest ih =>
    obtain ⟨h1, h2, h3⟩ := hclear r (List.mem_cons_self r rest)
    simp only [mountedElsewhere, occupiedByOther] at h2 h3
    simp only [shouldMountLoop]
    rw [if_neg h1, if_neg h2,
      if_neg (fun hc => h3 ⟨hc.1, fun hpp => h1 ⟨hpp, hc.1⟩, hc.2⟩)]
    exact ih (fun q hq => hclear q (List.mem_cons_of_mem r hq))

/-- Some rule of the scan fires on a record exactly when the record has the
device at the mount point or, the device not being `tmpfs`, anywhere, or has
the mount point while the request names a device. -/
theorem rule_fires_iff (p mp : String) (r : Mount) :
    ((r.PartitionPath = p ∧ r.MountPoint = mp)
        ∨ mountedElsewhere p mp r ∨ occupiedByOther p mp r)
      ↔ ((r.PartitionPath = p ∧ (r.MountPoint = mp ∨ p ≠ "tmpfs"))
        ∨ (r.MountPoint = mp ∧ p ≠ "")) := by
  unfold mountedElsewhere occupiedByOther
  constructor
  · rintro (⟨hpp, hmp⟩ | ⟨hpp, _, htmpfs⟩ | ⟨hmp, _, hp⟩)
    · exact Or.inl ⟨hpp, Or.inl hmp⟩
    · exact Or.inl ⟨hpp, Or.inr htmpfs⟩
    · exact Or.inr ⟨hmp, hp⟩
  · rintro (⟨hpp, hmp | htmpfs⟩ | ⟨hmp, hp⟩)
    · exact Or.inl ⟨hpp, hmp⟩
    · by_cases hmp : r.MountPoint = mp
      · exact Or.inl ⟨hpp, hmp⟩
      · exact Or.inr (Or.inl ⟨hpp, hmp, htmpfs⟩)
    · by_cases hpp : r.PartitionPath = p
      · exact Or.inl ⟨hpp, hmp⟩
      · exact Or.inr (Or.inr ⟨hmp, hpp, hp⟩)

/-- Whatever the searcher answers, `shouldMount` never says to mount while
returning an error. -/
theorem shouldMount_true_no_error (m : linuxMounter) (p mp : String) (h : History)
    (htrue : (m.shouldMount p mp h).1.1 = true) :
    (m.shouldMount p mp h).1.2 = none := by
  cases hs : m.mountsSearcher.SearchMounts h with
  | mk T err =>
    cases err with
    | some e => simp [linuxMounter.shouldMount, searchMounts, hs] at htrue
    | none =>
      rw [shouldMount_of_table m p mp h T hs] at htrue ⊢
      rw [(shouldMountLoop_true p mp T htrue).1]

/-- C20: for a table returned successfully by `SearchMounts`,
`MountFilesystem(p, m, fstype, opts)` runs the mount command, once, when no
record `r` has `(r.partitionPath = p and (r.mountPoint = m or p is not tmpfs))
or (r.mountPoint = m and p is not "")`, and runs no command when some record
has; `shouldMount` never returns true together with an error; and an error of
`shouldMount` is returned by `MountFilesystem` with the table read as the only
event. -/
theorem mount_acts_iff (m : linuxMounter) (p mp fstype : String) (opts : List String)
    (h : History) (T : List Mount)
    (hT : m.mountsSearcher.SearchMounts h = (T, none)) :
    ((∀ r ∈ T, ¬ ((r.PartitionPath = p ∧ (r.MountPoint = mp ∨ p ≠ "tmpfs"))
          ∨ (r.MountPoint = mp ∧ p ≠ ""))) →
        (m.MountFilesystem p mp fstype opts h).2
          = h ++ [Event.searchMounts,
              Event.runCommand "mount"
                ([p, mp] ++ (if fstype ≠ "" then ["-t", fstype] else [])
                  ++ optionArgs opts)])
    ∧ ((∃ r ∈ T, (r.PartitionPath = p ∧ (r.MountPoint = mp ∨ p ≠ "tmpfs"))
          ∨ (r.MountPoint = mp ∧ p ≠ "")) →
        (m.MountFilesystem p mp fstype opts h).2 = h ++ [Event.searchMounts])
    ∧ (∀ h1, (m.shouldMount p mp h1).1.1 = true → (m.shouldMount p mp h1).1.2 = none)
    ∧ (∀ e, (m.shouldMount p mp h).1.2 = some e →
        m.MountFilesystem p mp fstype opts h = (some e, h ++ [Event.searchMounts])) := by
  refine ⟨?_, ?_, fun h1 => shouldMount_true_no_error m p mp h1, ?_⟩
  · intro hclear
    have hscan := shouldMountLoop_of_clear p mp T (fun r hr => by
      have hno := hclear r hr
      rw [← rule_fires_iff] at hno
      exact ⟨fun hc => hno (Or.inl hc), fun hc => hno (Or.inr (Or.inl hc)),
        fun hc => hno (Or.inr (Or.inr hc))⟩)
    rw [MountFilesystem_of_scan_true m p mp fstype opts h T hT hscan, mountArgs_eq]
  · rintro ⟨r, hr, hfires⟩
    have hfalse : (shouldMountLoop p mp T).1 = false := by
      cases hb : (shouldMountLoop p mp T).1 with
      | false => rfl
      | true =>
        exfalso
        obtain ⟨h1, h2, h3⟩ := (shouldMountLoop_true p mp T hb).2 r hr
        rcases (rule_fires_iff p mp r).mpr hfires with hc | hc | hc
        · exact h1 hc
        · exact h2 hc
        · exact h3 hc
    rw [MountFilesystem_of_scan_false m p mp fstype opts h T (shouldMountLoop p mp T).2 hT
      (by rw [← hfalse])]
  · intro e he
    rw [shouldMount_of_table m p mp h T hT] at he
    have hfalse : (shouldMountLoop p mp T).1 = false := by
      cases hb : (shouldMountLoop p mp T).1 with
      | false => rfl
      | true =>
        rw [(shouldMountLoop_true p mp T hb).1] at he
        simp at he
    exact MountFilesystem_of_scan_false m p mp fstype opts h T (some e) hT
      (by rw [← hfalse, ← he])

/-- C20 (witness): over the table `[(/dev/sdb1, /mnt/b), (/dev/sda1, /mnt/a)]`,
with `/dev/sda1` requested at `/mnt/c`. -/
theorem mount_acts_iff_witness :
    mountedMounter.mountsSearcher.SearchMounts [] = (mountedTable, none)
    ∧ ((∀ r ∈ mountedTable,
          ¬ ((r.PartitionPath = "/dev/sda1" ∧ (r.MountPoint = "/mnt/c" ∨ "/dev/sda1" ≠ "tmpfs"))
            ∨ (r.MountPoint = "/mnt/c" ∧ "/dev/sda1" ≠ ""))) →
        (mountedMounter.MountFilesystem "/dev/sda1" "/mnt/c" "ext4" ["rw"] []).2
          = [] ++ [Event.searchMounts,
              Event.runCommand "mount"
                (["/dev/sda1", "/mnt/c"] ++ (if "ext4" ≠ "" then ["-t", "ext4"] else [])
                  ++ optionArgs ["rw"])])
    ∧ ((∃ r ∈ mountedTable,
          (r.PartitionPath = "/dev/sda1" ∧ (r.MountPoint = "/mnt/c" ∨ "/dev/sda1" ≠ "tmpfs"))
            ∨ (r.MountPoint = "/mnt/c" ∧ "/dev/sda1" ≠ "")) →
        (mountedMounter.MountFilesystem "/dev/sda1" "/mnt/c" "ext4" ["rw"] []).2
          = [] ++ [Event.searchMounts])
    ∧ (∀ h1, (mountedMounter.shouldMount "/dev/sda1" "/mnt/c" h1).1.1 = true →
        (mountedMounter.shouldMount "/dev/sda1" "/mnt/c" h1).1.2 = none)
    ∧ (∀ e, (mountedMounter.shouldMount "/dev/sda1" "/mnt/c" []).1.2 = some e →
        mountedMounter.MountFilesystem "/dev/sda1" "/mnt/c" "ext4" ["rw"] []
          = (some e, [] ++ [Event.searchMounts])) :=
  have hT : mountedMounter.mountsSearcher.SearchMounts [] = (mountedTable, none) := rfl
  ⟨hT, mount_acts_iff mountedMounter "/dev/sda1" "/mnt/c" "ext4" ["rw"] [] mountedTable hT⟩

/-! ## Remount: the successful path -/

/-- The scan of `IsMountPoint` returns the device of the first record at the
path. -/
theorem isMountPointLoop_first (path dev : String) (pre post : List Mount)
    (hfirst : ∀ r ∈ pre, r.MountPoint ≠ path) :
    isMountPointLoop path (pre ++ ⟨dev, path⟩ :: post) = (dev, true, none) := by
  induction pre with
  | nil => simp [isMountPointLoop]
  | cons r rest ih =>
    simp only [List.cons_append, isMountPointLoop]
    rw [if_neg (hfirst r (List.mem_cons_self r rest))]
    exact ih (fun q hq => hfirst q (List.mem_cons_of_mem r hq))

/-- When the mount point is found and `Unmount` returns no error, `Remount`
goes on with `Mount` of the device found. -/
theorem Remount_of_unmounted (m : linuxMounter) (fromMountPoint toMountPoint dev : String)
    (opts : List String) (h h2 : History) (T : List Mount) (b : Bool)
    (hT : m.mountsSearcher.SearchMounts h = (T, none))
    (hdev : isMountPointLoop fromMountPoint T = (dev, true, none))
    (hunmount : m.Unmount fromMountPoint (h ++ [Event.searchMounts]) = ((b, none), h2)) :
    m.Remount fromMountPoint toMountPoint opts h = m.Mount dev toMountPoint opts h2 := by
  simp [linuxMounter.Remount, IsMountPoint_of_table m fromMountPoint h T hT, hdev, hunmount]

/-- C11 (counterexample): `/dev/sda1` is mounted at `/mnt/a` and at `/mnt/b`;
`Remount(/mnt/a, /mnt/b, ro)` unmounts `/mnt/a` at the first attempt, the table
read by the following `Mount` holds only `(/dev/sda1, /mnt/b)`, which is no
conflict, and no `mount` command is issued. -/
theorem remount_onto_mounted_skips_mount :
    afterUmountMounter.mountsSearcher.SearchMounts []
      = ([⟨"/dev/sda1", "/mnt/a"⟩, ⟨"/dev/sda1", "/mnt/b"⟩], none)
    ∧ (afterUmountMounter.runner.RunCommand [Event.searchMounts, Event.searchMounts]
        "umount" ["/mnt/a"]).err = none
    ∧ afterUmountMounter.mountsSearcher.SearchMounts
        [Event.searchMounts, Event.searchMounts, Event.runCommand "umount" ["/mnt/a"]]
      = ([⟨"/dev/sda1", "/mnt/b"⟩], none)
    ∧ (∀ r ∈ [(⟨"/dev/sda1", "/mnt/b"⟩ : Mount)],
        ¬ mountedElsewhere "/dev/sda1" "/mnt/b" r ∧ ¬ occupiedByOther "/dev/sda1" "/mnt/b" r)
    ∧ afterUmountMounter.Remount "/mnt/a" "/mnt/b" ["ro"] []
      = (none, [Event.searchMounts, Event.searchMounts,
          Event.runCommand "umount" ["/mnt/a"], Event.searchMounts])
    ∧ ∀ args, Event.runCommand "mount" args
        ∉ (afterUmountMounter.Remount "/mnt/a" "/mnt/b" ["ro"] []).2 := by
  have hrun : afterUmountMounter.Remount "/mnt/a" "/mnt/b" ["ro"] []
      = (none, [Event.searchMounts, Event.searchMounts,
          Event.runCommand "umount" ["/mnt/a"], Event.searchMounts]) := by
    have hunmount : afterUmountMounter.Unmount "/mnt/a" ([] ++ [Event.searchMounts])
        = ((true, none),
           [Event.searchMounts, Event.searchMounts, Event.runCommand "umount" ["/mnt/a"]]) := by
      rw [Unmount_of_mounted afterUmountMounter "/mnt/a" _
        [⟨"/dev/sda1", "/mnt/a"⟩, ⟨"/dev/sda1", "/mnt/b"⟩] (by decide)
        ⟨⟨"/dev/sda1", "/mnt/a"⟩, by decide, Or.inr rfl⟩]
      have hc : (afterUmountMounter.runner.RunCommand ([] ++ [Event.searchMounts]
          ++ [Event.searchMounts]) "umount" ["/mnt/a"]).err = none := rfl
      rw [hc, unmountRetryLoop_done]
      rfl
    rw [Remount_of_unmounted afterUmountMounter "/mnt/a" "/mnt/b" "/dev/sda1" ["ro"] [] _
      [⟨"/dev/sda1", "/mnt/a"⟩, ⟨"/dev/sda1", "/mnt/b"⟩] true (by decide) (by decide) hunmount]
    decide
  refine ⟨by decide, rfl, by decide, by simp [mountedElsewhere, occupiedByOther], hrun, ?_⟩
  intro args
  rw [hrun]
  simp

/-- C11 (amended): when the table read at the start has `devA` as the device
of the first record at `from`, the table read by `Unmount` still lists `from`,
the `N`-th `umount from` is the first to succeed, and the table read by the
following `Mount` has neither the record `(devA, to)` nor a record conflicting
with it, the history of `Remount(from, to, opts)` grows by the two table
reads, the `umount from` attempts with their sleeps, a third table read and
one `mount devA to -o o1 ... -o on`, nothing else; the result is nil exactly
when that command succeeds.  `RemountAsReadonly(mp)` is
`Remount(mp, mp, "ro")`. -/
theorem remount_sequencing (m : linuxMounter) (fromMountPoint toMountPoint devA : String)
    (opts : List String) (N : Nat) (h : History) (pre post T2 T3 : List Mount)
    (hT : m.mountsSearcher.SearchMounts h = (pre ++ ⟨devA, fromMountPoint⟩ :: post, none))
    (hfirst : ∀ r ∈ pre, r.MountPoint ≠ fromMountPoint)
    (hT2 : m.mountsSearcher.SearchMounts (h ++ [Event.searchMounts]) = (T2, none))
    (hstill : ∃ r ∈ T2, r.PartitionPath = fromMountPoint ∨ r.MountPoint = fromMountPoint)
    (hN1 : 1 ≤ N) (hN : N ≤ m.maxUnmountRetries ∨ N = 1)
    (hfail : ∀ h1, invocations "umount" [fromMountPoint] h1
        < invocations "umount" [fromMountPoint] h + (N - 1) →
      (m.runner.RunCommand h1 "umount" [fromMountPoint]).err ≠ none)
    (hok : ∀ h1, invocations "umount" [fromMountPoint] h1
        = invocations "umount" [fromMountPoint] h + (N - 1) →
      (m.runner.RunCommand h1 "umount" [fromMountPoint]).err = none)
    (hT3 : m.mountsSearcher.SearchMounts
        (h ++ Event.searchMounts :: Event.searchMounts
          :: Event.runCommand "umount" [fromMountPoint]
          :: retryEvents m.unmountRetrySleep fromMountPoint (N - 1)) = (T3, none))
    (hclear : ∀ r ∈ T3, ¬ (r.PartitionPath = devA ∧ r.MountPoint = toMountPoint)
      ∧ ¬ mountedElsewhere devA toMountPoint r ∧ ¬ occupiedByOther devA toMountPoint r) :
    (m.Remount fromMountPoint toMountPoint opts h).2
        = (h ++ Event.searchMounts :: Event.searchMounts
            :: Event.runCommand "umount" [fromMountPoint]
            :: retryEvents m.unmountRetrySleep fromMountPoint (N - 1))
          ++ [Event.searchMounts,
              Event.runCommand "mount" (devA :: toMountPoint :: optionArgs opts)]
    ∧ ((m.Remount fromMountPoint toMountPoint opts h).1 = none ↔
        (m.runner.RunCommand
          ((h ++ Event.searchMounts :: Event.searchMounts
            :: Event.runCommand "umount" [fromMountPoint]
            :: retryEvents m.unmountRetrySleep fromMountPoint (N - 1))
            ++ [Event.searchMounts])
          "mount" (devA :: toMountPoint :: optionArgs opts)).err = none)
    ∧ ∀ mp, m.RemountAsReadonly mp = m.Remount mp mp ["ro"] := by
  have hcount : invocations "umount" [fromMountPoint] (h ++ [Event.searchMounts])
      = invocations "umount" [fromMountPoint] h := by
    simp [invocations]
  have hunmount := Unmount_succeeds_on_attempt m fromMountPoint N (h ++ [Event.searchMounts])
    T2 hT2 hstill hN1 hN (by rw [hcount]; exact hfail) (by rw [hcount]; exact hok)
  have hassoc : h ++ [Event.searchMounts] ++ Event.searchMounts
        :: Event.runCommand "umount" [fromMountPoint]
        :: retryEvents m.unmountRetrySleep fromMountPoint (N - 1)
      = h ++ Event.searchMounts :: Event.searchMounts
        :: Event.runCommand "umount" [fromMountPoint]
        :: retryEvents m.unmountRetrySleep fromMountPoint (N - 1) := by
    simp
  rw [hassoc] at hunmount
  have hremount := Remount_of_unmounted m fromMountPoint toMountPoint devA opts h _ _ true hT
    (isMountPointLoop_first fromMountPoint devA pre post hfirst) hunmount
  have hmount := MountFilesystem_of_scan_true m devA toMountPoint "" opts _ T3 hT3
    (shouldMountLoop_of_clear devA toMountPoint T3 hclear)
  have hargs : mountArgs devA toMountPoint "" opts = devA :: toMountPoint :: optionArgs opts := by
    simp [mountArgs_eq]
  rw [hargs] at hmount
  unfold linuxMounter.Mount at hremount
  rw [hremount, hmount]
  refine ⟨by simp, ?_, fun mp => rfl⟩
  cases (m.runner.RunCommand
      ((h ++ Event.searchMounts :: Event.searchMounts
        :: Event.runCommand "umount" [fromMountPoint]
        :: retryEvents m.unmountRetrySleep fromMountPoint (N - 1))
        ++ [Event.searchMounts])
      "mount" (devA :: toMountPoint :: optionArgs opts)).err <;> simp [WrapError]

/-- C11 (witness): `/dev/sda1` is moved from `/mnt/a` to `/mnt/c`; `umount
/mnt/a` is busy twice and succeeds at the third attempt. -/
theorem remount_sequencing_witness :
    releasingMounter.mountsSearcher.SearchMounts []
      = ([⟨"/dev/sdb1", "/mnt/b"⟩] ++ ⟨"/dev/sda1", "/mnt/a"⟩ :: [], none)
    ∧ (∀ r ∈ [(⟨"/dev/sdb1", "/mnt/b"⟩ : Mount)], r.MountPoint ≠ "/mnt/a")
    ∧ releasingMounter.mountsSearcher.SearchMounts ([] ++ [Event.searchMounts])
      = (mountedTable, none)
    ∧ (∃ r ∈ mountedTable, r.PartitionPath = "/mnt/a" ∨ r.MountPoint = "/mnt/a")
    ∧ 1 ≤ 3
    ∧ (3 ≤ releasingMounter.maxUnmountRetries ∨ 3 = 1)
    ∧ (∀ h1, invocations "umount" ["/mnt/a"] h1
          < invocations "umount" ["/mnt/a"] [] + (3 - 1) →
        (releasingMounter.runner.RunCommand h1 "umount" ["/mnt/a"]).err ≠ none)
    ∧ (∀ h1, invocations "umount" ["/mnt/a"] h1
          = invocations "umount" ["/mnt/a"] [] + (3 - 1) →
        (releasingMounter.runner.RunCommand h1 "umount" ["/mnt/a"]).err = none)
    ∧ releasingMounter.mountsSearcher.SearchMounts
        ([] ++ Event.searchMounts :: Event.searchMounts
          :: Event.runCommand "umount" ["/mnt/a"]
          :: retryEvents releasingMounter.unmountRetrySleep "/mnt/a" (3 - 1))
      = ([⟨"/dev/sdb1", "/mnt/b"⟩], none)
    ∧ (∀ r ∈ [(⟨"/dev/sdb1", "/mnt/b"⟩ : Mount)],
        ¬ (r.PartitionPath = "/dev/sda1" ∧ r.MountPoint = "/mnt/c")
        ∧ ¬ mountedElsewhere "/dev/sda1" "/mnt/c" r ∧ ¬ occupiedByOther "/dev/sda1" "/mnt/c" r)
    ∧ (releasingMounter.Remount "/mnt/a" "/mnt/c" ["ro"] []).2
        = ([] ++ Event.searchMounts :: Event.searchMounts
            :: Event.runCommand "umount" ["/mnt/a"]
            :: retryEvents releasingMounter.unmountRetrySleep "/mnt/a" (3 - 1))
          ++ [Event.searchMounts,
              Event.runCommand "mount" ("/dev/sda1" :: "/mnt/c" :: optionArgs ["ro"])]
    ∧ ((releasingMounter.Remount "/mnt/a" "/mnt/c" ["ro"] []).1 = none ↔
        (releasingMounter.runner.RunCommand
          (([] ++ Event.searchMounts :: Event.searchMounts
            :: Event.runCommand "umount" ["/mnt/a"]
            :: retryEvents releasingMounter.unmountRetrySleep "/mnt/a" (3 - 1))
            ++ [Event.searchMounts])
          "mount" ("/dev/sda1" :: "/mnt/c" :: optionArgs ["ro"])).err = none)
    ∧ ∀ mp, releasingMounter.RemountAsReadonly mp = releasingMounter.Remount mp mp ["ro"] :=
  have hT : releasingMounter.mountsSearcher.SearchMounts []
      = ([⟨"/dev/sdb1", "/mnt/b"⟩] ++ ⟨"/dev/sda1", "/mnt/a"⟩ :: [], none) := by decide
  have hfirst : ∀ r ∈ [(⟨"/dev/sdb1", "/mnt/b"⟩ : Mount)], r.MountPoint ≠ "/mnt/a" := by
    decide
  have hT2 : releasingMounter.mountsSearcher.SearchMounts ([] ++ [Event.searchMounts])
      = (mountedTable, none) := by decide
  have hstill : ∃ r ∈ mountedTable, r.PartitionPath = "/mnt/a" ∨ r.MountPoint = "/mnt/a" :=
    ⟨⟨"/dev/sda1", "/mnt/a"⟩, by decide, Or.inr rfl⟩
  have hN : 3 ≤ releasingMounter.maxUnmountRetries ∨ 3 = 1 := Or.inl (by decide)
  have hfail : ∀ h1, invocations "umount" ["/mnt/a"] h1
        < invocations "umount" ["/mnt/a"] [] + (3 - 1) →
      (releasingMounter.runner.RunCommand h1 "umount" ["/mnt/a"]).err ≠ none := by
    intro h1 hlt
    have hlt2 : invocations "umount" ["/mnt/a"] h1 < 2 := by
      simpa [invocations] using hlt
    simp [releasingMounter, NewLinuxMounter, busyTwiceRunner, hlt2]
  have hok : ∀ h1, invocations "umount" ["/mnt/a"] h1
        = invocations "umount" ["/mnt/a"] [] + (3 - 1) →
      (releasingMounter.runner.RunCommand h1 "umount" ["/mnt/a"]).err = none := by
    intro h1 heq
    have heq2 : invocations "umount" ["/mnt/a"] h1 = 2 := by
      simpa [invocations] using heq
    simp [releasingMounter, NewLinuxMounter, busyTwiceRunner, heq2]
  have hT3 : releasingMounter.mountsSearcher.SearchMounts
        ([] ++ Event.searchMounts :: Event.searchMounts
          :: Event.runCommand "umount" ["/mnt/a"]
          :: retryEvents releasingMounter.unmountRetrySleep "/mnt/a" (3 - 1))
      = ([⟨"/dev/sdb1", "/mnt/b"⟩], none) := by decide
  have hclear : ∀ r ∈ [(⟨"/dev/sdb1", "/mnt/b"⟩ : Mount)],
      ¬ (r.PartitionPath = "/dev/sda1" ∧ r.MountPoint = "/mnt/c")
      ∧ ¬ mountedElsewhere "/dev/sda1" "/mnt/c" r
      ∧ ¬ occupiedByOther "/dev/sda1" "/mnt/c" r := by
    simp [mountedElsewhere, occupiedByOther]
  ⟨hT, hfirst, hT2, hstill, by decide, hN, hfail, hok, hT3, hclear,
    remount_sequencing releasingMounter "/mnt/a" "/mnt/c" "/dev/sda1" ["ro"] 3 []
      [⟨"/dev/sdb1", "/mnt/b"⟩] [] mountedTable [⟨"/dev/sdb1", "/mnt/b"⟩]
      hT hfirst hT2 hstill (by decide) hN hfail hok hT3 hclear⟩

/-! ## Remount and RemountInPlace: preconditions -/

/-- The scan of `IsMountPoint` over a table with no record at the path. -/
theorem isMountPointLoop_of_not_mem (path : String) (T : List Mount)
    (hnone : ∀ r ∈ T, r.MountPoint ≠ path) :
    isMountPointLoop path T = ("", false, none) := by
  induction T with
  | nil => rfl
  | cons q rest ih =>
    simp only [isMountPointLoop]
    rw [if_neg (hnone q (List.mem_cons_self q rest))]
    exact ih (fun r hr => hnone r (List.mem_cons_of_mem q hr))

/-- C12: when `SearchMounts` succeeds and no record has mount point `from`,
`Remount(from, to, opts)` returns the non-nil error "Error finding device for
mount point from" wrapped around a nil cause, and when no record has `mp` as
partition path or mount point, `RemountInPlace(mp, opts)` returns the non-nil
error "Error finding existing mount point mp"; in both cases the history grows
by the table read only: no `umount`, no `mount`. -/
theorem mount_point_not_found (m : linuxMounter) (fromMountPoint toMountPoint mp : String)
    (opts : List String) (h : History) (T : List Mount)
    (hT : m.mountsSearcher.SearchMounts h = (T, none)) :
    ((∀ r ∈ T, r.MountPoint ≠ fromMountPoint) →
      m.Remount fromMountPoint toMountPoint opts h
        = (some (Error.wrapNil ("Error finding device for mount point " ++ fromMountPoint)),
           h ++ [Event.searchMounts]))
    ∧ ((∀ r ∈ T, r.PartitionPath ≠ mp ∧ r.MountPoint ≠ mp) →
      m.RemountInPlace mp opts h
        = (some (Error.wrapNil ("Error finding existing mount point " ++ mp)),
           h ++ [Event.searchMounts])) := by
  constructor
  · intro hnone
    simp [linuxMounter.Remount, IsMountPoint_of_table m fromMountPoint h T hT,
      isMountPointLoop_of_not_mem fromMountPoint T hnone, WrapError]
  · intro hfree
    simp [linuxMounter.RemountInPlace, IsMounted_of_table m mp h T hT,
      isMountedLoop_of_not_mem mp T hfree, WrapError]

/-- C12 (witness): `/mnt/c` is not in the table. -/
theorem mount_point_not_found_witness :
    mountedMounter.mountsSearcher.SearchMounts [] = (mountedTable, none)
    ∧ (∀ r ∈ mountedTable, r.MountPoint ≠ "/mnt/c")
    ∧ (∀ r ∈ mountedTable, r.PartitionPath ≠ "/mnt/c" ∧ r.MountPoint ≠ "/mnt/c")
    ∧ mountedMounter.Remount "/mnt/c" "/mnt/d" ["ro"] []
        = (some (Error.wrapNil ("Error finding device for mount point " ++ "/mnt/c")),
           [] ++ [Event.searchMounts])
    ∧ mountedMounter.RemountInPlace "/mnt/c" ["ro"] []
        = (some (Error.wrapNil ("Error finding existing mount point " ++ "/mnt/c")),
           [] ++ [Event.searchMounts]) :=
  have hT : mountedMounter.mountsSearcher.SearchMounts [] = (mountedTable, none) := rfl
  have hnone : ∀ r ∈ mountedTable, r.MountPoint ≠ "/mnt/c" := by decide
  have hfree : ∀ r ∈ mountedTable, r.PartitionPath ≠ "/mnt/c" ∧ r.MountPoint ≠ "/mnt/c" := by
    decide
  ⟨hT, hnone, hfree,
    (mount_point_not_found mountedMounter "/mnt/c" "/mnt/d" "/mnt/c" ["ro"] [] mountedTable
      hT).1 hnone,
    (mount_point_not_found mountedMounter "/mnt/c" "/mnt/d" "/mnt/c" ["ro"] [] mountedTable
      hT).2 hfree⟩

/-- The scan for an empty device over a table whose records all name a
device: only the third rule could fire, and it needs a device. -/
theorem shouldMountLoop_empty_device (mp : String) (T : List Mount)
    (hdev : ∀ r ∈ T, r.PartitionPath ≠ "") :
    shouldMountLoop "" mp T = (true, none) := by
  induction T with
  | nil => rfl
  | cons r rest ih =>
    have hr := hdev r (List.mem_cons_self r rest)
    simp only [shouldMountLoop]
    rw [if_neg (fun hc => hr hc.1), if_neg (fun hc => hr hc.1), if_neg (fun hc => hc.2 rfl)]
    exact ih (fun q hq => hdev q (List.mem_cons_of_mem r hq))

/-- C13 (counterexample): the table `[("", /mnt/a)]` has `/mnt/a` mounted, yet
`RemountInPlace(/mnt/a, ro)` returns nil without running `mount`: the record
with the empty device is an exact match for the request `("", /mnt/a)`. -/
theorem remount_in_place_empty_device_skips_mount :
    emptyDeviceMounter.IsMounted "/mnt/a" [] = ((true, none), [Event.searchMounts])
    ∧ emptyDeviceMounter.RemountInPlace "/mnt/a" ["ro"] []
        = (none, [Event.searchMounts, Event.searchMounts])
    ∧ Event.runCommand "mount" ["", "/mnt/a", "-o", "remount", "-o", "ro"]
        ∉ (emptyDeviceMounter.RemountInPlace "/mnt/a" ["ro"] []).2 := by
  refine ⟨by decide, by decide, by decide⟩

/-- C13 (amended): when `mp` is mounted and the table read again by `Mount`
has no record with an empty partition path, `RemountInPlace(mp, opts)` runs
`mount` exactly once, with arguments `["", mp, "-o", "remount", "-o", o1, ...,
"-o", on]`, runs no `umount`, and returns nil exactly when that command
succeeds. -/
theorem remount_in_place (m : linuxMounter) (mp : String) (opts : List String)
    (h : History) (T T2 : List Mount)
    (hT : m.mountsSearcher.SearchMounts h = (T, none))
    (hmounted : ∃ r ∈ T, r.PartitionPath = mp ∨ r.MountPoint = mp)
    (hT2 : m.mountsSearcher.SearchMounts (h ++ [Event.searchMounts]) = (T2, none))
    (hdev : ∀ r ∈ T2, r.PartitionPath ≠ "") :
    (m.RemountInPlace mp opts h).2
        = h ++ [Event.searchMounts, Event.searchMounts,
            Event.runCommand "mount" ("" :: mp :: "-o" :: "remount" :: optionArgs opts)]
    ∧ ((m.RemountInPlace mp opts h).1 = none ↔
        (m.runner.RunCommand (h ++ [Event.searchMounts, Event.searchMounts]) "mount"
          ("" :: mp :: "-o" :: "remount" :: optionArgs opts)).err = none)
    ∧ ∀ args, Event.runCommand "umount" args
        ∉ [Event.searchMounts, Event.searchMounts,
            Event.runCommand "mount" ("" :: mp :: "-o" :: "remount" :: optionArgs opts)] := by
  have hmount := MountFilesystem_of_scan_true m "" mp "" ("remount" :: opts) _ T2 hT2
    (shouldMountLoop_empty_device mp T2 hdev)
  have hargs : mountArgs "" mp "" ("remount" :: opts)
      = "" :: mp :: "-o" :: "remount" :: optionArgs opts := by
    simp [mountArgs_eq, optionArgs]
  rw [hargs] at hmount
  have hrun : m.RemountInPlace mp opts h
      = m.MountFilesystem "" mp "" ("remount" :: opts) (h ++ [Event.searchMounts]) := by
    simp [linuxMounter.RemountInPlace, IsMounted_of_table m mp h T hT,
      isMountedLoop_of_mem mp T hmounted, linuxMounter.Mount]
  rw [hrun, hmount]
  have hassoc : h ++ [Event.searchMounts] ++ [Event.searchMounts]
      = h ++ [Event.searchMounts, Event.searchMounts] := by simp
  rw [hassoc]
  refine ⟨by simp, ?_, ?_⟩
  · cases (m.runner.RunCommand (h ++ [Event.searchMounts, Event.searchMounts]) "mount"
        ("" :: mp :: "-o" :: "remount" :: optionArgs opts)).err <;> simp [WrapError]
  · intro args hmem
    simp only [List.mem_cons, List.mem_singleton] at hmem
    rcases hmem with hc | hc | hc | hc
    · cases hc
    · cases hc
    · have hname : "umount" = "mount" := (Event.runCommand.inj hc).1
      exact absurd hname (by decide)
    · simp at hc

/-- C13 (witness): `/mnt/a` is remounted read-only in place. -/
theorem remount_in_place_witness :
    mountedMounter.mountsSearcher.SearchMounts [] = (mountedTable, none)
    ∧ (∃ r ∈ mountedTable, r.PartitionPath = "/mnt/a" ∨ r.MountPoint = "/mnt/a")
    ∧ mountedMounter.mountsSearcher.SearchMounts ([] ++ [Event.searchMounts])
        = (mountedTable, none)
    ∧ (∀ r ∈ mountedTable, r.PartitionPath ≠ "")
    ∧ (mountedMounter.RemountInPlace "/mnt/a" ["ro"] []).2
        = [] ++ [Event.searchMounts, Event.searchMounts,
            Event.runCommand "mount" ("" :: "/mnt/a" :: "-o" :: "remount" :: optionArgs ["ro"])]
    ∧ ((mountedMounter.RemountInPlace "/mnt/a" ["ro"] []).1 = none ↔
        (mountedMounter.runner.RunCommand ([] ++ [Event.searchMounts, Event.searchMounts])
          "mount" ("" :: "/mnt/a" :: "-o" :: "remount" :: optionArgs ["ro"])).err = none)
    ∧ ∀ args, Event.runCommand "umount" args
        ∉ [Event.searchMounts, Event.searchMounts,
            Event.runCommand "mount"
              ("" :: "/mnt/a" :: "-o" :: "remount" :: optionArgs ["ro"])] :=
  have hT : mountedMounter.mountsSearcher.SearchMounts [] = (mountedTable, none) := rfl
  have hmounted : ∃ r ∈ mountedTable, r.PartitionPath = "/mnt/a" ∨ r.MountPoint = "/mnt/a" :=
    ⟨⟨"/dev/sda1", "/mnt/a"⟩, by decide, Or.inr rfl⟩
  have hT2 : mountedMounter.mountsSearcher.SearchMounts ([] ++ [Event.searchMounts])
      = (mountedTable, none) := rfl
  have hdev : ∀ r ∈ mountedTable, r.PartitionPath ≠ "" := by decide
  ⟨hT, hmounted, hT2, hdev,
    remount_in_place mountedMounter "/mnt/a" ["ro"] [] mountedTable mountedTable
      hT hmounted hT2 hdev⟩

/-! ## Detach -/

/-- `Detach` of a path that is not mounted: the device number is queried, its
error discarded, the symlink is read, and the control file is written when the
symlink was resolved. -/
theorem Detach_of_unmounted (m : linuxMounter) (sys : Syscall) (realPath : String)
    (h : History) (T : List Mount)
    (hT : m.mountsSearcher.SearchMounts h = (T, none))
    (hfree : ∀ r ∈ T, r.PartitionPath ≠ realPath ∧ r.MountPoint ≠ realPath) :
    m.Detach sys realPath h
      = match (m.fs.Readlink (h ++ [Event.searchMounts, Event.stat realPath])
            (blockDeviceLink (sys.Stat (h ++ [Event.searchMounts]) realPath).1)).2 with
        | some e =>
          ((false, some e),
           h ++ [Event.searchMounts, Event.stat realPath,
             Event.readlink (blockDeviceLink (sys.Stat (h ++ [Event.searchMounts]) realPath).1)])
        | none =>
          ((decide (m.fs.WriteFileString
              (h ++ [Event.searchMounts, Event.stat realPath,
                Event.readlink
                  (blockDeviceLink (sys.Stat (h ++ [Event.searchMounts]) realPath).1)])
              (deletePhysicalDevicePath
                (m.fs.Readlink (h ++ [Event.searchMounts, Event.stat realPath])
                  (blockDeviceLink (sys.Stat (h ++ [Event.searchMounts]) realPath).1)).1)
              "1" = none),
            m.fs.WriteFileString
              (h ++ [Event.searchMounts, Event.stat realPath,
                Event.readlink
                  (blockDeviceLink (sys.Stat (h ++ [Event.searchMounts]) realPath).1)])
              (deletePhysicalDevicePath
                (m.fs.Readlink (h ++ [Event.searchMounts, Event.stat realPath])
                  (blockDeviceLink (sys.Stat (h ++ [Event.searchMounts]) realPath).1)).1)
              "1"),
           h ++ [Event.searchMounts, Event.stat realPath,
             Event.readlink (blockDeviceLink (sys.Stat (h ++ [Event.searchMounts]) realPath).1),
             Event.writeFileString
               (deletePhysicalDevicePath
                 (m.fs.Readlink (h ++ [Event.searchMounts, Event.stat realPath])
                   (blockDeviceLink (sys.Stat (h ++ [Event.searchMounts]) realPath).1)).1)
               "1"]) := by
  simp only [linuxMounter.Detach, IsMounted_of_table m realPath h T hT,
    isMountedLoop_of_not_mem realPath T hfree, stat, readlink, writeFileString]
  simp only [List.append_assoc, List.singleton_append, List.cons_append, List.nil_append]
  cases (m.fs.Readlink (h ++ [Event.searchMounts, Event.stat realPath])
    (blockDeviceLink (sys.Stat (h ++ [Event.searchMounts]) realPath).1)).2 <;> simp

/-- C15: when some record of the table has `realPath` as partition path or
mount point, `Detach(realPath)` returns `(false, nil)`; the history grows by
the table read only: no file status query, no symlink read, no file written. -/
theorem detach_refuses_mounted (m : linuxMounter) (sys : Syscall) (realPath : String)
    (h : History) (T : List Mount)
    (hT : m.mountsSearcher.SearchMounts h = (T, none))
    (hmounted : ∃ r ∈ T, r.PartitionPath = realPath ∨ r.MountPoint = realPath) :
    m.Detach sys realPath h = ((false, none), h ++ [Event.searchMounts]) := by
  simp [linuxMounter.Detach, IsMounted_of_table m realPath h T hT,
    isMountedLoop_of_mem realPath T hmounted]

/-- C15 (witness): `/dev/sda1` is mounted at `/mnt/a`. -/
theorem detach_refuses_mounted_witness :
    partitionNodeMounter.mountsSearcher.SearchMounts [] = (mountedTable, none)
    ∧ (∃ r ∈ mountedTable, r.PartitionPath = "/dev/sda1" ∨ r.MountPoint = "/dev/sda1")
    ∧ partitionNodeMounter.Detach sdbStat "/dev/sda1" []
        = ((false, none), [] ++ [Event.searchMounts]) :=
  have hT : partitionNodeMounter.mountsSearcher.SearchMounts [] = (mountedTable, none) := rfl
  have hmounted : ∃ r ∈ mountedTable,
      r.PartitionPath = "/dev/sda1" ∨ r.MountPoint = "/dev/sda1" :=
    ⟨⟨"/dev/sda1", "/mnt/a"⟩, by decide, Or.inl rfl⟩
  ⟨hT, hmounted,
    detach_refuses_mounted partitionNodeMounter sdbStat "/dev/sda1" [] mountedTable hT hmounted⟩

/-- C18 (counterexample): `/dev/sdb` is not mounted and the file status query
fails; `Detach` nevertheless reads the symlink `/sys/dev/block/0:0`, writes the
control file and returns `(true, nil)`. -/
theorem detach_ignores_stat_failure :
    failingStat.Stat [Event.searchMounts] "/dev/sdb"
      = (0, some (Error.external "no such file or directory"))
    ∧ (∀ r ∈ mountedTable, r.PartitionPath ≠ "/dev/sdb" ∧ r.MountPoint ≠ "/dev/sdb")
    ∧ partitionNodeMounter.Detach failingStat "/dev/sdb" []
      = ((true, none),
         [Event.searchMounts, Event.stat "/dev/sdb", Event.readlink "/sys/dev/block/0:0",
           Event.writeFileString "/sys/block/sdb/device/delete" "1"]) := by
  refine ⟨rfl, by decide, by decide⟩

/-- C18 (amended): for a `realPath` that is not mounted, whatever the file
status query returns, error included, `Detach` reads the symlink of the device
number it left.  If the symlink resolution fails, `Detach` returns
`(false, err)` with that error and writes nothing; otherwise it writes the
control file once and returns `(false, err)` with the error of the write, or
`(true, nil)` when the write succeeded.  It returns true only when the symlink
was resolved and the write succeeded, and nothing is tried twice. -/
theorem detach_errors (m : linuxMounter) (sys : Syscall) (realPath : String)
    (h : History) (T : List Mount) (rdev : Nat) (serr : Option Error)
    (target : String) (lerr werr : Option Error)
    (hT : m.mountsSearcher.SearchMounts h = (T, none))
    (hfree : ∀ r ∈ T, r.PartitionPath ≠ realPath ∧ r.MountPoint ≠ realPath)
    (hstat : sys.Stat (h ++ [Event.searchMounts]) realPath = (rdev, serr))
    (hlink : m.fs.Readlink (h ++ [Event.searchMounts, Event.stat realPath])
      (blockDeviceLink rdev) = (target, lerr))
    (hwrite : m.fs.WriteFileString
      (h ++ [Event.searchMounts, Event.stat realPath, Event.readlink (blockDeviceLink rdev)])
      (deletePhysicalDevicePath target) "1" = werr) :
    (∀ e, lerr = some e →
      m.Detach sys realPath h
        = ((false, some e),
           h ++ [Event.searchMounts, Event.stat realPath,
             Event.readlink (blockDeviceLink rdev)]))
    ∧ (lerr = none →
      m.Detach sys realPath h
        = ((decide (werr = none), werr),
           h ++ [Event.searchMounts, Event.stat realPath,
             Event.readlink (blockDeviceLink rdev),
             Event.writeFileString (deletePhysicalDevicePath target) "1"]))
    ∧ ((m.Detach sys realPath h).1.1 = true ↔ lerr = none ∧ werr = none) := by
  have hrun := Detach_of_unmounted m sys realPath h T hT hfree
  rw [hstat] at hrun
  simp only [hlink] at hrun
  rw [hwrite] at hrun
  rw [hrun]
  cases lerr with
  | some e => simp
  | none => simp

/-- C18 (witness): the file status query fails, the symlink and the write
succeed. -/
theorem detach_errors_witness :
    partitionNodeMounter.mountsSearcher.SearchMounts [] = (mountedTable, none)
    ∧ (∀ r ∈ mountedTable, r.PartitionPath ≠ "/dev/sdb" ∧ r.MountPoint ≠ "/dev/sdb")
    ∧ failingStat.Stat ([] ++ [Event.searchMounts]) "/dev/sdb"
        = (0, some (Error.external "no such file or directory"))
    ∧ partitionNodeMounter.fs.Readlink ([] ++ [Event.searchMounts, Event.stat "/dev/sdb"])
        (blockDeviceLink 0) = ("../../devices/pci0000:00/block/sdb/sdb1", none)
    ∧ partitionNodeMounter.fs.WriteFileString
        ([] ++ [Event.searchMounts, Event.stat "/dev/sdb",
          Event.readlink (blockDeviceLink 0)])
        (deletePhysicalDevicePath "../../devices/pci0000:00/block/sdb/sdb1") "1" = none
    ∧ (∀ e, (none : Option Error) = some e →
        partitionNodeMounter.Detach failingStat "/dev/sdb" []
          = ((false, some e),
             [] ++ [Event.searchMounts, Event.stat "/dev/sdb",
               Event.readlink (blockDeviceLink 0)]))
    ∧ ((none : Option Error) = none →
        partitionNodeMounter.Detach failingStat "/dev/sdb" []
          = ((decide ((none : Option Error) = none), none),
             [] ++ [Event.searchMounts, Event.stat "/dev/sdb",
               Event.readlink (blockDeviceLink 0),
               Event.writeFileString
                 (deletePhysicalDevicePath "../../devices/pci0000:00/block/sdb/sdb1") "1"]))
    ∧ ((partitionNodeMounter.Detach failingStat "/dev/sdb" []).1.1 = true ↔
        (none : Option Error) = none ∧ (none : Option Error) = none) :=
  have hT : partitionNodeMounter.mountsSearcher.SearchMounts [] = (mountedTable, none) := rfl
  have hfree : ∀ r ∈ mountedTable,
      r.PartitionPath ≠ "/dev/sdb" ∧ r.MountPoint ≠ "/dev/sdb" := by decide
  ⟨hT, hfree, rfl, rfl, rfl,
    detach_errors partitionNodeMounter failingStat "/dev/sdb" [] mountedTable 0
      (some (Error.external "no such file or directory"))
      "../../devices/pci0000:00/block/sdb/sdb1" none none hT hfree rfl rfl rfl⟩

/-! ## The mount table cannot be read -/

/-- Over `tableLostMounter`, `Unmount(/mnt/a)` after one table read succeeds
at the first attempt. -/
theorem tableLost_unmount :
    tableLostMounter.Unmount "/mnt/a" ([] ++ [Event.searchMounts])
      = ((true, none),
         [Event.searchMounts, Event.searchMounts, Event.runCommand "umount" ["/mnt/a"]]) := by
  rw [Unmount_of_mounted tableLostMounter "/mnt/a" _ mountedTable (by decide)
    ⟨⟨"/dev/sda1", "/mnt/a"⟩, by decide, Or.inr rfl⟩]
  have hc : (tableLostMounter.runner.RunCommand ([] ++ [Event.searchMounts]
      ++ [Event.searchMounts]) "umount" ["/mnt/a"]).err = none := rfl
  rw [hc, unmountRetryLoop_done]
  rfl

/-- C17 (counterexample): the table can be read twice, `umount /mnt/a`
succeeds, and the query made by the final `Mount` fails.
`Remount(/mnt/a, /mnt/c, ro)` then returns the error after three queries of the
searcher and after the `umount` command has been run. -/
theorem remount_table_lost_after_umount :
    tableLostMounter.mountsSearcher.SearchMounts
        [Event.searchMounts, Event.searchMounts, Event.runCommand "umount" ["/mnt/a"]]
      = ([], some (Error.external "open /proc/mounts: permission denied"))
    ∧ tableLostMounter.Remount "/mnt/a" "/mnt/c" ["ro"] []
      = (some (Error.wrap (Error.external "open /proc/mounts: permission denied")
          "Searching mounts"),
         [Event.searchMounts, Event.searchMounts, Event.runCommand "umount" ["/mnt/a"],
           Event.searchMounts])
    ∧ Event.runCommand "umount" ["/mnt/a"]
        ∈ (tableLostMounter.Remount "/mnt/a" "/mnt/c" ["ro"] []).2
    ∧ (tableLostMounter.Remount "/mnt/a" "/mnt/c" ["ro"] []).2.count Event.searchMounts = 3 := by
  have hrun : tableLostMounter.Remount "/mnt/a" "/mnt/c" ["ro"] []
      = (some (Error.wrap (Error.external "open /proc/mounts: permission denied")
          "Searching mounts"),
         [Event.searchMounts, Event.searchMounts, Event.runCommand "umount" ["/mnt/a"],
           Event.searchMounts]) := by
    rw [Remount_of_unmounted tableLostMounter "/mnt/a" "/mnt/c" "/dev/sda1" ["ro"] [] _
      mountedTable true (by decide) (by decide) tableLost_unmount]
    decide
  refine ⟨by decide, hrun, ?_, ?_⟩
  · rw [hrun]
    decide
  · rw [hrun]
    decide

/-- C17 (amended): whenever a `SearchMounts` query, made at history `h`,
returns an error `e`, the operation that made it returns a non-nil error built
on `e` and does nothing after the failed query.  When the failed query is the
first of the operation, each of `IsMountPoint`, `IsMounted`, `MountFilesystem`,
`Mount`, `Unmount`, `Remount`, `RemountInPlace` and `Detach` returns
"Searching mounts" wrapped around `e` (wrapped once more by `Remount` and
`RemountInPlace`) with false and empty-string results, and the history holds
that one query only: no retry, no command, no symlink read, no file written.
When it is the second query of `Remount` (made by `Unmount`) or of
`RemountInPlace` (made by `Mount`), the history holds the two queries and no
command.  When it is the third query of `Remount` (made by `Mount`), the
history is that of the finished `Unmount`, `umount` commands included, and
the failed query. -/
theorem mount_table_unavailable (m : linuxMounter) (sys : Syscall) (h : History)
    (T : List Mount) (e : Error)
    (p mp fstype target fromMountPoint toMountPoint : String) (opts : List String)
    (hErr : m.mountsSearcher.SearchMounts h = (T, some e)) :
    (m.IsMountPoint mp h
        = (("", false, some (Error.wrap e "Searching mounts")), h ++ [Event.searchMounts])
      ∧ m.IsMounted target h
        = ((false, some (Error.wrap e "Searching mounts")), h ++ [Event.searchMounts])
      ∧ m.MountFilesystem p mp fstype opts h
        = (some (Error.wrap e "Searching mounts"), h ++ [Event.searchMounts])
      ∧ m.Mount p mp opts h
        = (some (Error.wrap e "Searching mounts"), h ++ [Event.searchMounts])
      ∧ m.Unmount target h
        = ((false, some (Error.wrap e "Searching mounts")), h ++ [Event.searchMounts])
      ∧ m.Remount fromMountPoint toMountPoint opts h
        = (some (Error.wrap (Error.wrap e "Searching mounts")
            ("Error finding device for mount point " ++ fromMountPoint)),
           h ++ [Event.searchMounts])
      ∧ m.RemountInPlace mp opts h
        = (some (Error.wrap (Error.wrap e "Searching mounts")
            ("Error finding existing mount point " ++ mp)),
           h ++ [Event.searchMounts])
      ∧ m.Detach sys target h
        = ((false, some (Error.wrap e "Searching mounts")), h ++ [Event.searchMounts]))
    ∧ (∀ h0 T0, h = h0 ++ [Event.searchMounts] →
        m.mountsSearcher.SearchMounts h0 = (T0, none) →
        (∃ r ∈ T0, r.MountPoint = fromMountPoint) →
        m.Remount fromMountPoint toMountPoint opts h0
          = (some (Error.wrap (Error.wrap e "Searching mounts")
              ("Unmounting " ++ fromMountPoint)),
             h0 ++ [Event.searchMounts, Event.searchMounts]))
    ∧ (∀ h0 T0, h = h0 ++ [Event.searchMounts] →
        m.mountsSearcher.SearchMounts h0 = (T0, none) →
        (∃ r ∈ T0, r.PartitionPath = mp ∨ r.MountPoint = mp) →
        m.RemountInPlace mp opts h0
          = (some (Error.wrap e "Searching mounts"),
             h0 ++ [Event.searchMounts, Event.searchMounts]))
    ∧ (∀ h0 T0 b, m.mountsSearcher.SearchMounts h0 = (T0, none) →
        (∃ r ∈ T0, r.MountPoint = fromMountPoint) →
        m.Unmount fromMountPoint (h0 ++ [Event.searchMounts]) = ((b, none), h) →
        m.Remount fromMountPoint toMountPoint opts h0
          = (some (Error.wrap e "Searching mounts"), h ++ [Event.searchMounts])) := by
  have hq : ∀ t, m.IsMounted t h
      = ((false, some (Error.wrap e "Searching mounts")), h ++ [Event.searchMounts]) := by
    intro t
    simp [linuxMounter.IsMounted, searchMounts, hErr, WrapError]
  have hp : m.IsMountPoint mp h
      = (("", false, some (Error.wrap e "Searching mounts")), h ++ [Event.searchMounts]) := by
    simp [linuxMounter.IsMountPoint, searchMounts, hErr, WrapError]
  have hs : ∀ d t, m.shouldMount d t h
      = ((false, some (Error.wrap e "Searching mounts")), h ++ [Event.searchMounts]) := by
    intro d t
    simp [linuxMounter.shouldMount, searchMounts, hErr, WrapError]
  have hmf : ∀ d t f o, m.MountFilesystem d t f o h
      = (some (Error.wrap e "Searching mounts"), h ++ [Event.searchMounts]) := by
    intro d t f o
    simp [linuxMounter.MountFilesystem, hs d t]
  have hu : ∀ t, m.Unmount t h
      = ((false, some (Error.wrap e "Searching mounts")), h ++ [Event.searchMounts]) := by
    intro t
    simp [linuxMounter.Unmount, hq t]
  refine ⟨⟨hp, hq target, hmf p mp fstype opts, hmf p mp "" opts, hu target, ?_, ?_, ?_⟩,
    ?_, ?_, ?_⟩
  · simp [linuxMounter.Remount, linuxMounter.IsMountPoint, searchMounts, hErr, WrapError]
  · simp [linuxMounter.RemountInPlace, hq mp, WrapError]
  · simp [linuxMounter.Detach, hq target]
  · intro h0 T0 hh hT0 hfound
    obtain ⟨dev, _, hscan⟩ := isMountPointLoop_of_mem fromMountPoint T0 hfound
    have hu2 := hu fromMountPoint
    rw [hh] at hu2
    simp [linuxMounter.Remount, IsMountPoint_of_table m fromMountPoint h0 T0 hT0, hscan, hu2,
      WrapError]
  · intro h0 T0 hh hT0 hmounted
    have hm2 := hmf "" mp "" ("remount" :: opts)
    rw [hh] at hm2
    simp [linuxMounter.RemountInPlace, IsMounted_of_table m mp h0 T0 hT0,
      isMountedLoop_of_mem mp T0 hmounted, linuxMounter.Mount, hm2]
  · intro h0 T0 b hT0 hfound hunmount
    obtain ⟨dev, _, hscan⟩ := isMountPointLoop_of_mem fromMountPoint T0 hfound
    rw [Remount_of_unmounted m fromMountPoint toMountPoint dev opts h0 h T0 b hT0 hscan
      hunmount]
    exact hmf dev toMountPoint "" opts

/-- C17 (witness): the first query fails (`noTableMounter`), the second query
fails (`firstReadOnlyMounter`), and the third query of `Remount` fails after
the `umount` (`tableLostMounter`). -/
theorem mount_table_unavailable_witness :
    noTableMounter.mountsSearcher.SearchMounts []
      = ([], some (Error.external "open /proc/mounts: permission denied"))
    ∧ (noTableMounter.IsMountPoint "/mnt/a" []
        = (("", false,
            some (Error.wrap (Error.external "open /proc/mounts: permission denied")
              "Searching mounts")), [] ++ [Event.searchMounts])
      ∧ noTableMounter.IsMounted "/dev/sda1" []
        = ((false,
            some (Error.wrap (Error.external "open /proc/mounts: permission denied")
              "Searching mounts")), [] ++ [Event.searchMounts])
      ∧ noTableMounter.MountFilesystem "/dev/sda1" "/mnt/a" "ext4" ["rw"] []
        = (some (Error.wrap (Error.external "open /proc/mounts: permission denied")
            "Searching mounts"), [] ++ [Event.searchMounts])
      ∧ noTableMounter.Mount "/dev/sda1" "/mnt/a" ["rw"] []
        = (some (Error.wrap (Error.external "open /proc/mounts: permission denied")
            "Searching mounts"), [] ++ [Event.searchMounts])
      ∧ noTableMounter.Unmount "/dev/sda1" []
        = ((false,
            some (Error.wrap (Error.external "open /proc/mounts: permission denied")
              "Searching mounts")), [] ++ [Event.searchMounts])
      ∧ noTableMounter.Remount "/mnt/a" "/mnt/b" ["rw"] []
        = (some (Error.wrap (Error.wrap
              (Error.external "open /proc/mounts: permission denied") "Searching mounts")
            ("Error finding device for mount point " ++ "/mnt/a")),
           [] ++ [Event.searchMounts])
      ∧ noTableMounter.RemountInPlace "/mnt/a" ["rw"] []
        = (some (Error.wrap (Error.wrap
              (Error.external "open /proc/mounts: permission denied") "Searching mounts")
            ("Error finding existing mount point " ++ "/mnt/a")),
           [] ++ [Event.searchMounts])
      ∧ noTableMounter.Detach sdbStat "/dev/sda1" []
        = ((false,
            some (Error.wrap (Error.external "open /proc/mounts: permission denied")
              "Searching mounts")), [] ++ [Event.searchMounts]))
    ∧ firstReadOnlyMounter.mountsSearcher.SearchMounts [Event.searchMounts]
      = ([], some (Error.external "open /proc/mounts: permission denied"))
    ∧ firstReadOnlyMounter.mountsSearcher.SearchMounts [] = (mountedTable, none)
    ∧ (∃ r ∈ mountedTable, r.MountPoint = "/mnt/a")
    ∧ (∃ r ∈ mountedTable, r.PartitionPath = "/mnt/a" ∨ r.MountPoint = "/mnt/a")
    ∧ firstReadOnlyMounter.Remount "/mnt/a" "/mnt/b" ["rw"] []
      = (some (Error.wrap (Error.wrap
            (Error.external "open /proc/mounts: permission denied") "Searching mounts")
          ("Unmounting " ++ "/mnt/a")),
         [] ++ [Event.searchMounts, Event.searchMounts])
    ∧ firstReadOnlyMounter.RemountInPlace "/mnt/a" ["rw"] []
      = (some (Error.wrap (Error.external "open /proc/mounts: permission denied")
          "Searching mounts"),
         [] ++ [Event.searchMounts, Event.searchMounts])
    ∧ tableLostMounter.mountsSearcher.SearchMounts
        [Event.searchMounts, Event.searchMounts, Event.runCommand "umount" ["/mnt/a"]]
      = ([], some (Error.external "open /proc/mounts: permission denied"))
    ∧ tableLostMounter.mountsSearcher.SearchMounts [] = (mountedTable, none)
    ∧ tableLostMounter.Unmount "/mnt/a" ([] ++ [Event.searchMounts])
      = ((true, none),
         [Event.searchMounts, Event.searchMounts, Event.runCommand "umount" ["/mnt/a"]])
    ∧ tableLostMounter.Remount "/mnt/a" "/mnt/b" ["rw"] []
      = (some (Error.wrap (Error.external "open /proc/mounts: permission denied")
          "Searching mounts"),
         [Event.searchMounts, Event.searchMounts, Event.runCommand "umount" ["/mnt/a"]]
           ++ [Event.searchMounts]) :=
  have hErrA : noTableMounter.mountsSearcher.SearchMounts []
      = ([], some (Error.external "open /proc/mounts: permission denied")) := rfl
  have hErrB : firstReadOnlyMounter.mountsSearcher.SearchMounts [Event.searchMounts]
      = ([], some (Error.external "open /proc/mounts: permission denied")) := by decide
  have hT0B : firstReadOnlyMounter.mountsSearcher.SearchMounts [] = (mountedTable, none) := by
    decide
  have hfound : ∃ r ∈ mountedTable, r.MountPoint = "/mnt/a" :=
    ⟨⟨"/dev/sda1", "/mnt/a"⟩, by decide, rfl⟩
  have hmounted : ∃ r ∈ mountedTable, r.PartitionPath = "/mnt/a" ∨ r.MountPoint = "/mnt/a" :=
    ⟨⟨"/dev/sda1", "/mnt/a"⟩, by decide, Or.inr rfl⟩
  have hErrC : tableLostMounter.mountsSearcher.SearchMounts
        [Event.searchMounts, Event.searchMounts, Event.runCommand "umount" ["/mnt/a"]]
      = ([], some (Error.external "open /proc/mounts: permission denied")) := by decide
  have hT0C : tableLostMounter.mountsSearcher.SearchMounts [] = (mountedTable, none) := by
    decide
  ⟨hErrA,
    (mount_table_unavailable noTableMounter sdbStat [] []
      (Error.external "open /proc/mounts: permission denied")
      "/dev/sda1" "/mnt/a" "ext4" "/dev/sda1" "/mnt/a" "/mnt/b" ["rw"] hErrA).1,
    hErrB, hT0B, hfound, hmounted,
    (mount_table_unavailable firstReadOnlyMounter sdbStat [Event.searchMounts] []
      (Error.external "open /proc/mounts: permission denied")
      "/dev/sda1" "/mnt/a" "ext4" "/dev/sda1" "/mnt/a" "/mnt/b" ["rw"] hErrB).2.1
      [] mountedTable rfl hT0B hfound,
    (mount_table_unavailable firstReadOnlyMounter sdbStat [Event.searchMounts] []
      (Error.external "open /proc/mounts: permission denied")
      "/dev/sda1" "/mnt/a" "ext4" "/dev/sda1" "/mnt/a" "/mnt/b" ["rw"] hErrB).2.2.1
      [] mountedTable rfl hT0B hmounted,
    hErrC, hT0C, tableLost_unmount,
    (mount_table_unavailable tableLostMounter sdbStat
      [Event.searchMounts, Event.searchMounts, Event.runCommand "umount" ["/mnt/a"]] []
      (Error.external "open /proc/mounts: permission denied")
      "/dev/sda1" "/mnt/a" "ext4" "/dev/sda1" "/mnt/a" "/mnt/b" ["rw"] hErrC).2.2.2
      [] mountedTable true hT0C hfound tableLost_unmount⟩

/-- C16 (the code at the failing input): for the partition node
`.../block/sdb/sdb1` the path written is `/sys/block/sdb/device/delete`, but
for the whole-disk node `.../block/sdb`, whose parent directory is `block`,
the already formatted path is formatted a second time and `Detach` writes "1"
to `/sys/block//sys/block/sdb/device/delete/device/delete`; this happens for
every symlink target whose parent directory is named `block`. -/
theorem detach_whole_disk_path_formatted_twice :
    deletePhysicalDevicePath "../../devices/pci0000:00/block/sdb/sdb1"
      = "/sys/block/sdb/device/delete"
    ∧ Base (Dir "../../devices/pci0000:00/block/sdb") = "block"
    ∧ deletePhysicalDevicePath "../../devices/pci0000:00/block/sdb"
      = "/sys/block//sys/block/sdb/device/delete/device/delete"
    ∧ wholeDiskNodeMounter.Detach sdbStat "/dev/sdb" []
      = ((true, none),
         [Event.searchMounts, Event.stat "/dev/sdb", Event.readlink "/sys/dev/block/8:16",
           Event.writeFileString "/sys/block//sys/block/sdb/device/delete/device/delete" "1"])
    ∧ partitionNodeMounter.Detach sdbStat "/dev/sdb" []
      = ((true, none),
         [Event.searchMounts, Event.stat "/dev/sdb", Event.readlink "/sys/dev/block/8:16",
           Event.writeFileString "/sys/block/sdb/device/delete" "1"])
    ∧ ∀ blockDevicePath, Base (Dir blockDevicePath) = "block" →
        deletePhysicalDevicePath blockDevicePath
          = "/sys/block/" ++ ("/sys/block/" ++ Base blockDevicePath ++ "/device/delete")
            ++ "/device/delete" := by
  refine ⟨by decide, by decide, by decide, by decide, by decide, ?_⟩
  intro blockDevicePath hparent
  simp [deletePhysicalDevicePath, hparent]

set_option maxRecDepth 100000 in
/-- The bits of a minor number below 256 lie outside the mask `~0xff`. -/
theorem minor_high_bits_zero : ∀ y, y < 256 → y &&& (2 ^ 64 - 1 - 0xff) = 0 := by
  decide

/-- Device numbers below `2 ^ 20` (major below 4096, minor below 256):
`rdev / 256` and `rdev % 256` are the Linux major and minor numbers. -/
theorem legacy_device_number (rdev : Nat) (hsmall : rdev < 2 ^ 20) :
    rdev / 256 = linuxMajor rdev ∧ rdev % 256 = linuxMinor rdev := by
  have h8 : rdev >>> 8 = rdev / 256 := by
    rw [Nat.shiftRight_eq_div_pow]
  have h12 : rdev >>> 12 = rdev / 4096 := by
    rw [Nat.shiftRight_eq_div_pow]
  have h32 : rdev >>> 32 = 0 := by
    rw [Nat.shiftRight_eq_div_pow]
    omega
  have hmaj : (rdev / 256) &&& 0xfff = rdev / 256 := by
    have hlt : rdev / 256 < 2 ^ 12 := by omega
    exact Nat.and_pow_two_sub_one_of_lt_two_pow hlt
  have hmin : rdev &&& 0xff = rdev % 256 := Nat.and_pow_two_sub_one_eq_mod rdev 8
  have hhigh : (rdev / 4096) &&& (2 ^ 64 - 1 - 0xff) = 0 :=
    minor_high_bits_zero (rdev / 4096) (by omega)
  unfold linuxMajor linuxMinor
  rw [h8, h12, h32, hmaj, hmin, hhigh]
  simp

/-- C19 (the code at the failing input): the 64-bit device number `1050624` has
major 8 and minor 256, yet `Detach` resolves `/sys/dev/block/4104:0`: `rdev /
256` and `rdev % 256` are the major and minor numbers only while the minor is
below 256 (device numbers below `2 ^ 20`). -/
theorem detach_extended_minor_wrong_link :
    1050624 < 2 ^ 64
    ∧ linuxMajor 1050624 = 8
    ∧ linuxMinor 1050624 = 256
    ∧ (1050624 / 256 = 4104 ∧ 1050624 % 256 = 0)
    ∧ blockDeviceLink 1050624 = "/sys/dev/block/4104:0"
    ∧ partitionNodeMounter.Detach extendedMinorStat "/dev/sdb" []
      = ((true, none),
         [Event.searchMounts, Event.stat "/dev/sdb", Event.readlink "/sys/dev/block/4104:0",
           Event.writeFileString "/sys/block/sdb/device/delete" "1"])
    ∧ ∀ rdev, rdev < 2 ^ 20 →
        blockDeviceLink rdev
          = "/sys/dev/block/" ++ toString (linuxMajor rdev) ++ ":"
            ++ toString (linuxMinor rdev) := by
  refine ⟨by decide, by decide, by decide, by decide, by decide, by decide, ?_⟩
  intro rdev hsmall
  obtain ⟨hmaj, hmin⟩ := legacy_device_number rdev hsmall
  unfold blockDeviceLink
  rw [hmaj, hmin]

/-! ## SwapOn -/

/-- Past the first line, the loop of `SwapOn` returns exactly when some line
has the device as its first field. -/
theorem swapOnLoop_after_header (p : String) (lines : List String) :
    ∀ i, i ≠ 0 →
      (swapOnLoop p i lines = true ↔ ∃ line ∈ lines, (Fields line).head? = some p) := by
  induction lines with
  | nil =>
    intro i _
    simp [swapOnLoop]
  | cons line rest ih =>
    intro i hi
    simp only [swapOnLoop]
    rw [if_neg hi]
    by_cases hempty : (Fields line).length = 0
    · rw [if_pos hempty, ih (i + 1) (Nat.succ_ne_zero i)]
      have hnil : Fields line = [] := List.length_eq_zero.mp hempty
      constructor
      · rintro ⟨l, hl, hf⟩
        exact ⟨l, List.mem_cons_of_mem line hl, hf⟩
      · rintro ⟨l, hl, hf⟩
        rcases List.mem_cons.mp hl with heq | hl
        · rw [heq, hnil] at hf
          simp at hf
        · exact ⟨l, hl, hf⟩
    · rw [if_neg hempty]
      by_cases hfirst : (Fields line).head? = some p
      · rw [if_pos hfirst]
        simp only [true_iff]
        exact ⟨line, List.mem_cons_self line rest, hfirst⟩
      · rw [if_neg hfirst, ih (i + 1) (Nat.succ_ne_zero i)]
        constructor
        · rintro ⟨l, hl, hf⟩
          exact ⟨l, List.mem_cons_of_mem line hl, hf⟩
        · rintro ⟨l, hl, hf⟩
          rcases List.mem_cons.mp hl with heq | hl
          · rw [heq] at hf
            exact absurd hf hfirst
          · exact ⟨l, hl, hf⟩

/-- The loop of `SwapOn` over all lines skips the first one. -/
theorem swapOnLoop_iff_listed (p out : String) :
    swapOnLoop p 0 (Split out '\n') = true ↔ listedAsSwap out p := by
  unfold listedAsSwap
  cases hlines : Split out '\n' with
  | nil => simp [swapOnLoop]
  | cons header rest =>
    simp only [swapOnLoop, if_pos, List.tail_cons]
    exact swapOnLoop_after_header p rest 1 (by decide)

/-- C14: with `out` the text printed by `swapon -s`, when some line of `out`
other than the first has `p` as its first whitespace-delimited field,
`SwapOn(p)` returns nil and runs nothing after the query; otherwise it runs
`swapon p` once and returns nil exactly when that command succeeds.  A match on
the header line is ignored, blank lines are skipped, and a match in a later
field does not count. -/
theorem swapon_parsing (m : linuxMounter) (p out : String) (h : History)
    (hout : (m.runner.RunCommand h "swapon" ["-s"]).stdout = out) :
    (listedAsSwap out p →
      m.SwapOn p h = (none, h ++ [Event.runCommand "swapon" ["-s"]]))
    ∧ (¬ listedAsSwap out p →
      (m.SwapOn p h).2
          = h ++ [Event.runCommand "swapon" ["-s"], Event.runCommand "swapon" [p]]
      ∧ ((m.SwapOn p h).1 = none ↔
          (m.runner.RunCommand (h ++ [Event.runCommand "swapon" ["-s"]])
            "swapon" [p]).err = none)
      ∧ ∀ e, (m.runner.RunCommand (h ++ [Event.runCommand "swapon" ["-s"]])
            "swapon" [p]).err = some e →
          (m.SwapOn p h).1 = some (Error.wrap e "Shelling out to swapon"))
    ∧ ¬ listedAsSwap "/dev/sdb2 partition 1048572 0 -1\n" "/dev/sdb2"
    ∧ listedAsSwap "Filename\tType\n\n   \n/dev/sdb2 partition 1048572 0 -1\n" "/dev/sdb2"
    ∧ ¬ listedAsSwap "Filename\tType\n/dev/sdb2 partition 1048572 0 -1\n" "partition" := by
  refine ⟨?_, ?_, ?_, ?_, ?_⟩
  · intro hlisted
    have hloop := (swapOnLoop_iff_listed p out).mpr hlisted
    simp [linuxMounter.SwapOn, runCommand, hout, hloop]
  · intro hnot
    have hloop : swapOnLoop p 0 (Split out '\n') = false := by
      cases hb : swapOnLoop p 0 (Split out '\n') with
      | false => rfl
      | true => exact absurd ((swapOnLoop_iff_listed p out).mp hb) hnot
    simp only [linuxMounter.SwapOn, runCommand, hout, hloop]
    cases (m.runner.RunCommand (h ++ [Event.runCommand "swapon" ["-s"]])
      "swapon" [p]).err <;> simp [WrapError]
  · rw [← swapOnLoop_iff_listed]
    decide
  · rw [← swapOnLoop_iff_listed]
    decide
  · rw [← swapOnLoop_iff_listed]
    decide

/-- C14 (witness): `swapon -s` lists `/dev/sdb2`. -/
theorem swapon_parsing_witness :
    (swapListingMounter.runner.RunCommand [] "swapon" ["-s"]).stdout
      = "Filename\tType\tSize\tUsed\tPriority\n\n/dev/sdb2 partition 1048572 0 -1\n"
    ∧ listedAsSwap
        "Filename\tType\tSize\tUsed\tPriority\n\n/dev/sdb2 partition 1048572 0 -1\n"
        "/dev/sdb2"
    ∧ swapListingMounter.SwapOn "/dev/sdb2" []
        = (none, [] ++ [Event.runCommand "swapon" ["-s"]]) :=
  have hout : (swapListingMounter.runner.RunCommand [] "swapon" ["-s"]).stdout
      = "Filename\tType\tSize\tUsed\tPriority\n\n/dev/sdb2 partition 1048572 0 -1\n" := by
    decide
  have hlisted : listedAsSwap
      "Filename\tType\tSize\tUsed\tPriority\n\n/dev/sdb2 partition 1048572 0 -1\n"
      "/dev/sdb2" := by
    rw [← swapOnLoop_iff_listed]
    decide
  ⟨hout, hlisted,
    (swapon_parsing swapListingMounter "/dev/sdb2" _ [] hout).1 hlisted⟩

end Disk
